import Mathlib

/-!
# stackit-cli: SKCF utilities and the `create` commands

A shallow embedding of

* `internal/pkg/services/skcf/utils/utils.go`
  (`ClusterExists`, `ConvertToSeconds`, `WriteConfigFile`),
* `internal/cmd/skcf/cluster/create/create.go` (`NewCmd`'s `RunE`, `parseInput`,
  `buildRequest`, `outputResult`),
* `internal/cmd/argus/credentials/create/create.go` (`NewCmd`'s `RunE`),

together with the parts of the Go standard library they call
(`strconv.ParseUint`, `strconv.FormatUint`), and of the wait handler that the create command
calls, which is part of the SDK and is modelled from sections 3, 4.2 and 7 of the
specification.

Conventions.

* A Go `string` is a sequence of bytes: `GoString := List UInt8`.  `len` is the
  number of bytes and `s[i:j]` slices bytes.  `goBytes "30s"` is the Go string
  literal `"30s"` (its UTF-8 bytes).
* A `uint64` is a `Nat` below `2 ^ 64`; every arithmetic operation that can wrap
  is followed by an explicit `% 2 ^ 64`.
* A Go pointer that may be `nil` is an `Option`; dereferencing `none` is a
  run-time panic, which the embedding makes an explicit outcome.
* Collaborators outside the repository (API client, printer, prompt, wait
  handler, operating system) are fields of an environment record, and every
  call to one is recorded in an event trace.
-/

set_option maxRecDepth 100000

namespace Stackit

deriving instance DecidableEq for Except

/-! ## Go strings -/

/-- A Go string: an immutable sequence of bytes. -/
abbrev GoString := List UInt8

/-- The bytes of a Go string literal (UTF-8 encoding of the source text). -/
def goBytes (s : String) : GoString := s.data.flatMap String.utf8EncodeChar

/-! ## `strconv.ParseUint(s, 10, 64)` and `strconv.FormatUint(n, 10)` -/

/-- The two error kinds of `strconv.ParseUint`: `ErrSyntax` and `ErrRange`. -/
inductive NumError where
  | syntaxError
  | rangeError
  deriving DecidableEq, Repr

/-- The largest `uint64`, `1<<64 - 1`. -/
def maxUint64 : Nat := 18446744073709551615

/-- The `cutoff` of `ParseUint` for base 10: the smallest number such that
`cutoff * 10 > maxUint64`. -/
def cutoff : Nat := maxUint64 / 10 + 1

/-- The helper `lower` of package `strconv`: `c | ('x' - 'X')`. -/
def lower (c : UInt8) : UInt8 := c ||| 0x20

/-- The digit value `d` that the loop of `ParseUint` assigns to the byte `c`
(`base0` is false for base 10, so `'_'` is not special): `c - '0'` for a decimal
digit, `lower(c) - 'a' + 10` for a letter, and `none` for the `default` branch
(a syntax error). -/
def digitVal (c : UInt8) : Option Nat :=
  if 48 ≤ c.toNat ∧ c.toNat ≤ 57 then some (c.toNat - 48)
  else if 97 ≤ (lower c).toNat ∧ (lower c).toNat ≤ 122 then some ((lower c).toNat - 97 + 10)
  else none

/-- The loop `for _, c := range []byte(s)` of `ParseUint` with `base = 10` and
`bitSize = 64`; `n` is the accumulator (a `uint64`). -/
def parseUintLoop : List UInt8 → Nat → Except NumError Nat
  | [], n => .ok n
  | c :: rest, n =>
    match digitVal c with
    | none => .error .syntaxError
    | some d =>
      if d ≥ 10 then .error .syntaxError
      else if n ≥ cutoff then .error .rangeError
      else
        let n10 := n * 10 % 2 ^ 64
        let n1 := (n10 + d) % 2 ^ 64
        if n1 < n10 ∨ n1 > maxUint64 then .error .rangeError
        else parseUintLoop rest n1

/-- The call `strconv.ParseUint(s, 10, 64)`. -/
def ParseUint (s : GoString) : Except NumError Nat :=
  if s = [] then .error .syntaxError else parseUintLoop s 0

/-- Digit emission of `strconv.FormatUint(n, 10)`: the decimal digits of `n`,
least significant first, pushed in front of `acc`.  `fuel` bounds the number of
digits produced. -/
def formatBits : Nat → Nat → List UInt8 → List UInt8
  | 0, _, acc => acc
  | fuel + 1, n, acc =>
    if n < 10 then UInt8.ofNat (48 + n) :: acc
    else formatBits fuel (n / 10) (UInt8.ofNat (48 + n % 10) :: acc)

/-- The call `strconv.FormatUint(n, 10)` for a `uint64` `n`: a `uint64` has at
most 20 decimal digits. -/
def FormatUint (n : Nat) : GoString := formatBits 20 n []

/-! ## `ConvertToSeconds` (utils.go) -/

/-- The three errors `ConvertToSeconds` builds with `fmt.Errorf`, each carrying
the string that is formatted into its message. -/
inductive ConvertError where
  /-- The error `"invalid time: %s"` -/
  | invalidTime (timeStr : GoString)
  /-- The error `"invalid time value: %s"` -/
  | invalidTimeValue (valueStr : GoString)
  /-- The error `"invalid time unit: %s"` -/
  | invalidTimeUnit (unit : GoString)
  deriving DecidableEq, Repr

/-- The function `ConvertToSeconds(timeStr string) (*string, error)`.  Every
error return of the source pairs the error with a `nil` result and the success
return pairs the result with a `nil` error, so the pair is an `Except`. -/
def ConvertToSeconds (timeStr : GoString) : Except ConvertError GoString :=
  if timeStr.length < 2 then .error (.invalidTime timeStr)
  else
    let unit := timeStr.drop (timeStr.length - 1)
    let valueStr := timeStr.take (timeStr.length - 1)
    match ParseUint valueStr with
    | .error _ => .error (.invalidTimeValue valueStr)
    | .ok value =>
      let finish (multiplier : Nat) : Except ConvertError GoString :=
        .ok (FormatUint (value * multiplier % 2 ^ 64))
      if unit = goBytes "s" then finish 1
      else if unit = goBytes "m" then finish 60
      else if unit = goBytes "h" then finish (60 * 60)
      else if unit = goBytes "d" then finish (60 * 60 * 24)
      else if unit = goBytes "M" then finish (60 * 60 * 24 * 30)
      else .error (.invalidTimeUnit unit)


/-! ## Vocabulary of the specification for durations -/

/-- A byte is an ASCII decimal digit `'0'..'9'`. -/
def isDigit (c : UInt8) : Prop := 48 ≤ c.toNat ∧ c.toNat ≤ 57

instance : DecidablePred isDigit := fun c => by unfold isDigit; infer_instance

/-- The number a digit string denotes in base 10 when reading continues from the
value `acc` of the digits already read. -/
def decValFrom (acc : Nat) (ds : GoString) : Nat :=
  ds.foldl (fun a c => a * 10 + (c.toNat - 48)) acc

/-- The number a digit string denotes in base 10 (an unbounded natural number). -/
def decVal (ds : GoString) : Nat := decValFrom 0 ds

/-- A decimal magnitude: one or more ASCII decimal digits. -/
def isDecimal (ds : GoString) : Prop := ds ≠ [] ∧ ∀ c ∈ ds, isDigit c

instance : DecidablePred isDecimal := fun ds => by unfold isDecimal; infer_instance

/-- The multiplier table of the specification: `s`→1, `m`→60, `h`→3600,
`d`→86400, `M`→2592000, and no multiplier for any other byte. -/
def unitMultiplier (u : UInt8) : Option Nat :=
  if [u] = goBytes "s" then some 1
  else if [u] = goBytes "m" then some 60
  else if [u] = goBytes "h" then some 3600
  else if [u] = goBytes "d" then some 86400
  else if [u] = goBytes "M" then some 2592000
  else none

/-! ## Go errors, pointers and panics -/

/-- A Go `error` value, as far as this code builds them. -/
inductive GoError where
  /-- An error with a message and nothing wrapped: one returned by a collaborator, or
  built by `fmt.Errorf` without `%w`. -/
  | msg (text : GoString)
  /-- The error `fmt.Errorf("<pre>: %w", inner)`. -/
  | wrap (pre : GoString) (inner : GoError)
  /-- The error `&errors.ProjectIdError{}`. -/
  | projectIdError
  deriving DecidableEq, Repr

/-- The method `Unwrap` that `fmt.Errorf` gives an error built with `%w`. -/
def GoError.Unwrap : GoError → Option GoError
  | .wrap _ inner => some inner
  | _ => none

/-- How a Go function call ends: it returns a value, or it panics on a nil pointer
dereference or an index out of range. -/
inductive Run (α : Type) where
  | ret (a : α)
  | panic
  deriving DecidableEq, Repr

/-! ## `ClusterExists` (utils.go) -/

/-- The SDK type `skcf.Cluster`, of which this code reads the field `Name *string`. -/
structure Cluster where
  Name : Option GoString
  deriving DecidableEq, Repr

/-- The SDK type `skcf.ListClustersResponse`, with its field `Items *[]Cluster`. -/
structure ListClustersResponse where
  Items : Option (List Cluster)
  deriving DecidableEq, Repr

/-- The interface `SKCFClient`: `ListClustersExecute(ctx, projectId)` returns a
`*skcf.ListClustersResponse` and an `error`. -/
structure SKCFClient where
  ListClustersExecute : GoString → Option ListClustersResponse × Option GoError

/-- The loop `for _, cl := range *clusters.Items` of `ClusterExists`: `true` at the first
cluster with `cl.Name != nil && *cl.Name == clusterName`, `false` when the range ends. -/
def rangeItems : List Cluster → GoString → Bool
  | [], _ => false
  | cl :: rest, clusterName =>
    match cl.Name with
    | some name => if name = clusterName then true else rangeItems rest clusterName
    | none => rangeItems rest clusterName

/-- The function `ClusterExists(ctx, apiClient, projectId, clusterName) (bool, error)`. -/
def ClusterExists (apiClient : SKCFClient) (projectId clusterName : GoString) :
    Run (Bool × Option GoError) :=
  match apiClient.ListClustersExecute projectId with
  | (_, some err) => .ret (false, some (.wrap (goBytes "list SKCF clusters") err))
  | (none, none) => .panic
  | (some clusters, none) =>
    match clusters.Items with
    | none => .panic
    | some items => .ret (rangeItems items clusterName, none)

/-! ## `WriteConfigFile` (utils.go) -/

/-- The operating system as `WriteConfigFile` uses it, over a type `σ` of file-system states:
`filepath.Dir`, `os.MkdirAll(path, perm)` and `os.WriteFile(name, data, perm)`, and the two
observations the tests make of a state, `os.ReadFile` and whether a path is a directory. -/
structure OS (σ : Type) where
  Dir : GoString → GoString
  MkdirAll : GoString → Nat → σ → Option GoError × σ
  WriteFile : GoString → GoString → Nat → σ → Option GoError × σ
  ReadFile : σ → GoString → Option GoString
  IsDir : σ → GoString → Bool

/-- The documented behaviour of package `os` that the claims on `WriteConfigFile` rest on: a
successful `WriteFile` leaves the data as the content of the file and removes no directory,
and a successful `MkdirAll` leaves its path a directory. -/
structure OS.Lawful {σ : Type} (os : OS σ) : Prop where
  read_after_write : ∀ name data perm st st',
    os.WriteFile name data perm st = (none, st') → os.ReadFile st' name = some data
  isDir_after_mkdirAll : ∀ path perm st st',
    os.MkdirAll path perm st = (none, st') → os.IsDir st' path = true
  isDir_after_write : ∀ name data perm st st' dir,
    os.WriteFile name data perm st = (none, st') → os.IsDir st dir = true →
      os.IsDir st' dir = true

/-- A call of `WriteConfigFile` to the operating system. -/
inductive FsEvent where
  | mkdirAll (path : GoString) (perm : Nat)
  | writeFile (name data : GoString) (perm : Nat)
  deriving DecidableEq, Repr

/-- The function `WriteConfigFile(configPath, data string) error`, from the file-system
state `st`: the calls made to the operating system, the error returned and the state left. -/
def WriteConfigFile {σ : Type} (os : OS σ) (configPath data : GoString) (st : σ) :
    List FsEvent × Option GoError × σ :=
  if data = goBytes "" then ([], some (.msg (goBytes "no data to write")), st)
  else
    let dir := os.Dir configPath
    match os.MkdirAll dir 0o700 st with
    | (some err, st1) =>
      ([.mkdirAll dir 0o700], some (.wrap (goBytes "create config directory") err), st1)
    | (none, st1) =>
      match os.WriteFile configPath data 0o600 st1 with
      | (some err, st2) =>
        ([.mkdirAll dir 0o700, .writeFile configPath data 0o600],
          some (.wrap (goBytes "write file") err), st2)
      | (none, st2) =>
        ([.mkdirAll dir 0o700, .writeFile configPath data 0o600], none, st2)

/-- A small in-memory file system: the directories and the files with their content. -/
structure MemFS where
  dirs : List GoString
  files : List (GoString × GoString)
  deriving DecidableEq, Repr

/-- The path up to its last `/`, or `.` when it has none: a stand-in for `filepath.Dir` on
the in-memory file system.  It does not clean the path as `filepath.Dir` does (`..`, `.` and
repeated separators are kept); on paths that are already clean, such as those of
`TestWriteConfigFile`, the two agree. -/
def memDir (path : GoString) : GoString :=
  match (path.reverse.dropWhile (fun c => c != 47)).reverse.dropLast with
  | [] => if path.head? = some 47 then goBytes "/" else goBytes "."
  | d => d

/-- An operating system over `MemFS`, which shows that `OS.Lawful` can be met; it is a
stand-in for package `os`, not a model of it.  `MkdirAll` fails on a path that is a file;
`WriteFile` fails on the empty path, on a path that ends with a separator, on a path that is
a directory and on a path whose directory is missing. -/
def memOS : OS MemFS where
  Dir := memDir
  MkdirAll := fun path _ st =>
    if (st.files.lookup path).isSome then (some (.msg (goBytes "not a directory")), st)
    else (none, { st with dirs := path :: st.dirs })
  WriteFile := fun name data _ st =>
    if name = goBytes "" ∨ name.getLast? = some 47 then
      (some (.msg (goBytes "no such file or directory")), st)
    else if st.dirs.contains name then (some (.msg (goBytes "is a directory")), st)
    else if !st.dirs.contains (memDir name) then
      (some (.msg (goBytes "no such file or directory")), st)
    else (none, { st with files := (name, data) :: st.files })
  ReadFile := fun st name => st.files.lookup name
  IsDir := fun st path => st.dirs.contains path

/-! ## The commands: events and shared types -/

/-- The SDK type `skcf.CreateOrUpdateClusterPayload`; its content is not inspected by this
code, and `&skcf.CreateOrUpdateClusterPayload{}` is the payload with empty content. -/
structure CreateOrUpdateClusterPayload where
  content : GoString
  deriving DecidableEq, Repr

/-- What a command does to the world outside its own variables, in order. -/
inductive Event where
  /-- The call `p.Debug(level, format, args...)`, with the constant text of its format. -/
  | debug (text : GoString)
  /-- The call `p.PromptForConfirmation(prompt)`. -/
  | prompt (text : GoString)
  /-- The call `apiClient.ListClustersExecute(ctx, projectId)` made by `ClusterExists`. -/
  | listClusters (projectId : GoString)
  /-- The call `req.Execute()` on the request built by `buildRequest` for a cluster. -/
  | createCluster (projectId clusterName : GoString) (payload : CreateOrUpdateClusterPayload)
  /-- The call `s.Start(text)` on the spinner. -/
  | spinnerStart (text : GoString)
  /-- The call `s.Stop()` on the spinner. -/
  | spinnerStop
  /-- The call `wait.CreateOrUpdateClusterWaitHandler(ctx, apiClient, projectId,
  name).WaitWithContext(ctx)`. -/
  | waitCluster (projectId name : GoString)
  /-- The calls `p.Outputf` and `p.Outputln`, with the text written. -/
  | output (text : GoString)
  /-- The call `argusUtils.GetInstanceName(ctx, apiClient, instanceId, projectId)`. -/
  | getInstanceName (instanceId projectId : GoString)
  /-- The call `req.Execute()` on the request built by `buildRequest` for credentials. -/
  | createCredentials (instanceId projectId : GoString)
  deriving DecidableEq, Repr

/-- The event is a confirmation prompt. -/
def Event.isPrompt : Event → Bool
  | .prompt _ => true
  | _ => false

/-- The event is the submission of a mutating request. -/
def Event.isMutating : Event → Bool
  | .createCluster _ _ _ => true
  | .createCredentials _ _ => true
  | _ => false

/-- The event is a call of the wait handler. -/
def Event.isWait : Event → Bool
  | .waitCluster _ _ => true
  | _ => false

/-- The event writes to the command's output. -/
def Event.isOutput : Event → Bool
  | .output _ => true
  | _ => false

/-- The events `pre` followed by the run `x`. -/
def after {β : Type} (pre : List Event) (x : List Event × β) : List Event × β :=
  (pre ++ x.1, x.2)

/-- The type `globalflags.GlobalFlagModel`, with the fields the commands read. -/
structure GlobalFlagModel where
  Async : Bool
  AssumeYes : Bool
  OutputFormat : GoString
  ProjectId : GoString
  deriving DecidableEq, Repr

/-! ## `skcf cluster create` (create.go) -/

/-- The type `inputModel` of the command; the embedded `*GlobalFlagModel` is the field
`toGlobalFlagModel`. -/
structure inputModel extends GlobalFlagModel where
  ClusterName : GoString
  Payload : Option CreateOrUpdateClusterPayload
  deriving DecidableEq, Repr

/-- What surrounds one run of the command: the arguments and flags, the constants of package
`print`, and the answers of the collaborators (printer, API client, wait handler,
marshallers). -/
structure CreateEnv where
  /-- The positional arguments `args`. -/
  inputArgs : List GoString
  /-- The result of `globalflags.Parse(p, cmd)`. -/
  globalFlags : GlobalFlagModel
  /-- The result of `flags.FlagToStringPointer(p, cmd, payloadFlag)`. -/
  payloadValue : Option GoString
  /-- The call `json.Unmarshal([]byte(*payloadValue), payload)`. -/
  jsonUnmarshal : GoString → Except GoError CreateOrUpdateClusterPayload
  /-- The result of `p.IsVerbosityDebug()`. -/
  isVerbosityDebug : Bool
  /-- The call `print.BuildDebugStrFromInputModel(model)`. -/
  buildDebugStr : inputModel → Except GoError GoString
  /-- The error of `client.ConfigureClient(p)`, if any. -/
  configureClient : Option GoError
  /-- The result of `projectname.GetProjectName(ctx, p, cmd)`. -/
  getProjectName : Except GoError GoString
  /-- The call `p.PromptForConfirmation(prompt)`. -/
  promptForConfirmation : GoString → Option GoError
  /-- The API client as `ClusterExists` uses it. -/
  skcfClient : SKCFClient
  /-- The call `req.Execute()` of the create request for a project, cluster name and
  payload. -/
  createExecute : GoString → GoString → CreateOrUpdateClusterPayload →
    Option Cluster × Option GoError
  /-- The error of `WaitWithContext(ctx)` of the wait handler for a project and name. -/
  waitWithContext : GoString → GoString → Option GoError
  /-- The verb `%q` of package `fmt` on a string. -/
  quote : GoString → GoString
  /-- The constant `print.JSONOutputFormat`. -/
  JSONOutputFormat : GoString
  /-- The constant `print.YAMLOutputFormat`. -/
  YAMLOutputFormat : GoString
  /-- The call `json.MarshalIndent(resp, "", "  ")`. -/
  jsonMarshalIndent : Cluster → Except GoError GoString
  /-- The call `yaml.MarshalWithOptions(resp, yaml.IndentSequence(true))`. -/
  yamlMarshal : Cluster → Except GoError GoString

/-- Lines 166 to 181 of `parseInput`: the model is built from the flags, the cluster name
and the payload, written to the debug log when the verbosity asks for it, and returned. -/
def buildModel (env : CreateEnv) (clusterName : GoString)
    (payload : Option CreateOrUpdateClusterPayload) :
    List Event × Run (Except GoError inputModel) :=
  let model : inputModel :=
    { toGlobalFlagModel := env.globalFlags, ClusterName := clusterName, Payload := payload }
  if env.isVerbosityDebug then
    match env.buildDebugStr model with
    | .error _ =>
      ([.debug (goBytes "convert model to string for debugging: %v")], .ret (.ok model))
    | .ok _ => ([.debug (goBytes "parsed input values: %s")], .ret (.ok model))
  else ([], .ret (.ok model))

/-- The function `parseInput(p, cmd, inputArgs) (*inputModel, error)`. -/
def parseInput (env : CreateEnv) : List Event × Run (Except GoError inputModel) :=
  match env.inputArgs with
  | [] => ([], .panic)
  | clusterName :: _ =>
    if env.globalFlags.ProjectId = goBytes "" then ([], .ret (.error .projectIdError))
    else
      match env.payloadValue with
      | none => buildModel env clusterName none
      | some value =>
        match env.jsonUnmarshal value with
        | .error err => ([], .ret (.error (.wrap (goBytes "encode payload") err)))
        | .ok payload => buildModel env clusterName (some payload)

/-- The function `outputResult(p, model, projectLabel, resp) error`, called with a `resp`
that is not nil. -/
def outputResult (env : CreateEnv) (model : inputModel) (projectLabel : GoString)
    (resp : Cluster) : List Event × Run (Option GoError) :=
  if model.OutputFormat = env.JSONOutputFormat then
    match env.jsonMarshalIndent resp with
    | .error err => ([], .ret (some (.wrap (goBytes "marshal SKCF cluster") err)))
    | .ok details => ([.output (details ++ goBytes "\n")], .ret none)
  else if model.OutputFormat = env.YAMLOutputFormat then
    match env.yamlMarshal resp with
    | .error err => ([], .ret (some (.wrap (goBytes "marshal SKCF cluster") err)))
    | .ok details => ([.output (details ++ goBytes "\n")], .ret none)
  else
    let operationState :=
      if model.Async then goBytes "Triggered creation of" else goBytes "Created"
    match resp.Name with
    | none => ([], .panic)
    | some name =>
      ([.output (operationState ++ goBytes " cluster for project " ++ env.quote projectLabel
          ++ goBytes ". Cluster name: " ++ name ++ goBytes "\n")], .ret none)

/-- Lines 126 to 137 of `RunE`: the wait for the asynchronous operation when async mode is
not enabled, then `outputResult`. -/
def waitAndOutput (env : CreateEnv) (model : inputModel) (projectLabel : GoString)
    (resp : Cluster) (name : GoString) : List Event × Run (Option GoError) :=
  if !model.Async then
    match env.waitWithContext model.ProjectId name with
    | some err =>
      ([.spinnerStart (goBytes "Creating cluster"), .waitCluster model.ProjectId name],
        .ret (some (.wrap (goBytes "wait for SKCF cluster creation") err)))
    | none =>
      after [.spinnerStart (goBytes "Creating cluster"), .waitCluster model.ProjectId name,
          .spinnerStop]
        (outputResult env model projectLabel resp)
  else outputResult env model projectLabel resp

/-- Lines 109 to 124 of `RunE`: the default payload, `buildRequest`, `req.Execute()` and the
dereference `*resp.Name`; then the rest of `RunE`. -/
def submitCreate (env : CreateEnv) (model : inputModel) (projectLabel : GoString) :
    List Event × Run (Option GoError) :=
  let payload : CreateOrUpdateClusterPayload :=
    match model.Payload with
    | none => { content := goBytes "" }
    | some p => p
  let model : inputModel := { model with Payload := some payload }
  after [.createCluster model.ProjectId model.ClusterName payload]
    (match env.createExecute model.ProjectId model.ClusterName payload with
     | (_, some err) => ([], .ret (some (.wrap (goBytes "create SKCF cluster") err)))
     | (none, none) => ([], .panic)
     | (some resp, none) =>
       match resp.Name with
       | none => ([], .panic)
       | some name => waitAndOutput env model projectLabel resp name)

/-- Lines 100 to 107 of `RunE`: the check that the cluster does not exist yet; then the rest
of `RunE`. -/
def checkExists (env : CreateEnv) (model : inputModel) (projectLabel : GoString) :
    List Event × Run (Option GoError) :=
  after [.listClusters model.ProjectId]
    (match ClusterExists env.skcfClient model.ProjectId model.ClusterName with
     | .panic => ([], .panic)
     | .ret (_, some err) => ([], .ret (some err))
     | .ret (true, none) =>
       ([], .ret (some (.msg (goBytes "cluster with name " ++ model.ClusterName
          ++ goBytes " already exists"))))
     | .ret (false, none) => submitCreate env model projectLabel)

/-- Lines 82 to 88 of `RunE`: the confirmation prompt unless `AssumeYes`; then the rest of
`RunE`. -/
def confirmCreate (env : CreateEnv) (model : inputModel) (projectLabel : GoString) :
    List Event × Run (Option GoError) :=
  if !model.AssumeYes then
    let prompt := goBytes "Are you sure you want to create a cluster for project "
      ++ env.quote projectLabel ++ goBytes "?"
    after [.prompt prompt]
      (match env.promptForConfirmation prompt with
       | some err => ([], .ret (some err))
       | none => checkExists env model projectLabel)
  else checkExists env model projectLabel

/-- The function `RunE` of the command built by `NewCmd`: the events of the run and how it
ends (the error it returns, `none` for `nil`, or a panic). -/
def createRunE (env : CreateEnv) : List Event × Run (Option GoError) :=
  match parseInput env with
  | (tr, .panic) => (tr, .panic)
  | (tr, .ret (.error err)) => (tr, .ret (some err))
  | (tr, .ret (.ok model)) =>
    match env.configureClient with
    | some err => (tr, .ret (some err))
    | none =>
      match env.getProjectName with
      | .error _ =>
        after (tr ++ [.debug (goBytes "get project name: %v")])
          (confirmCreate env model model.ProjectId)
      | .ok projectLabel => after tr (confirmCreate env model projectLabel)

/-! ## `argus credentials create` (create.go) -/

/-- The SDK type of `resp.Credentials`, with its fields `Username` and `Password *string`. -/
structure Credentials where
  Username : Option GoString
  Password : Option GoString
  deriving DecidableEq, Repr

/-- The SDK type of the response of the create-credentials request, with its field
`Credentials`, a pointer. -/
structure CreateCredentialsResponse where
  Credentials : Option Credentials
  deriving DecidableEq, Repr

/-- What surrounds one run of the credentials command. -/
structure CredentialsEnv where
  /-- The result of `globalflags.Parse(p, cmd)`. -/
  globalFlags : GlobalFlagModel
  /-- The result of `flags.FlagToStringValue(p, cmd, instanceIdFlag)`. -/
  instanceId : GoString
  /-- The error of `client.ConfigureClient(p)`, if any. -/
  configureClient : Option GoError
  /-- The call `argusUtils.GetInstanceName(ctx, apiClient, instanceId, projectId)`. -/
  getInstanceName : GoString → GoString → Except GoError GoString
  /-- The call `p.PromptForConfirmation(prompt)`. -/
  promptForConfirmation : GoString → Option GoError
  /-- The call `req.Execute()` of the create-credentials request. -/
  createExecute : GoString → GoString → Option CreateCredentialsResponse × Option GoError
  /-- The verb `%q` of package `fmt` on a string. -/
  quote : GoString → GoString

/-- Lines 80 to 88 of `RunE`: the output of the credentials. -/
def outputCredentials (env : CredentialsEnv) (instanceLabel : GoString)
    (resp : Option CreateCredentialsResponse) : List Event × Run (Option GoError) :=
  after [.output (goBytes "Created credentials for instance " ++ env.quote instanceLabel
      ++ goBytes ".\n\n")]
    (match resp with
     | none => ([], .panic)
     | some resp =>
       match resp.Credentials with
       | none => ([], .panic)
       | some creds =>
         match creds.Username with
         | none => ([], .panic)
         | some username =>
           after (if username ≠ goBytes "" then
               [.output (goBytes "Username: " ++ username ++ goBytes "\n")] else [])
             (match creds.Password with
              | none => ([], .panic)
              | some password =>
                ([.output (goBytes "Password: " ++ password ++ goBytes "\n")], .ret none)))

/-- Lines 70 to 88 of `RunE`, entered with the current value `err` of the variable `err`:
`buildRequest`, the test `err != nil`, `req.Execute()` and the output. -/
def submitCredentials (env : CredentialsEnv) (instanceLabel : GoString) (err : Option GoError) :
    List Event × Run (Option GoError) :=
  match err with
  | some e => ([], .ret (some e))
  | none =>
    after [.createCredentials env.instanceId env.globalFlags.ProjectId]
      (match env.createExecute env.instanceId env.globalFlags.ProjectId with
       | (_, some e) =>
         ([], .ret (some (.wrap (goBytes "create credentials for Argus instance") e)))
       | (resp, none) => outputCredentials env instanceLabel resp)

/-- Lines 62 to 88 of `RunE`, entered with the current value `err` of the variable `err`:
the confirmation prompt unless `AssumeYes`, which assigns `err`; then the rest. -/
def confirmCredentials (env : CredentialsEnv) (instanceLabel : GoString)
    (err : Option GoError) : List Event × Run (Option GoError) :=
  if !env.globalFlags.AssumeYes then
    let prompt := goBytes "Are you sure you want to create credentials for instance "
      ++ env.quote instanceLabel ++ goBytes "?"
    after [.prompt prompt]
      (match env.promptForConfirmation prompt with
       | some e => ([], .ret (some e))
       | none => submitCredentials env instanceLabel none)
  else submitCredentials env instanceLabel err

/-- The function `RunE` of the credentials command built by `NewCmd`. -/
def credentialsRunE (env : CredentialsEnv) : List Event × Run (Option GoError) :=
  if env.globalFlags.ProjectId = goBytes "" then ([], .ret (some .projectIdError))
  else
    match env.configureClient with
    | some err => ([], .ret (some err))
    | none =>
      after [.getInstanceName env.instanceId env.globalFlags.ProjectId]
        (match env.getInstanceName env.instanceId env.globalFlags.ProjectId with
         | .error err =>
           after [.debug (goBytes "get instance name: %v")]
             (confirmCredentials env env.instanceId (some err))
         | .ok instanceLabel => confirmCredentials env instanceLabel none)

/-! ## Example runs -/

/-- A run of `skcf cluster create my-cluster` in project `p1` without a payload flag, in
which no cluster exists yet, every collaborator succeeds and the create response names the
cluster; the flags `Async` and `AssumeYes` and the answer of the prompt are left open. -/
def exampleCreateEnv (async assumeYes : Bool) (answer : Option GoError) : CreateEnv where
  inputArgs := [goBytes "my-cluster"]
  globalFlags :=
    { Async := async, AssumeYes := assumeYes, OutputFormat := goBytes "pretty",
      ProjectId := goBytes "p1" }
  payloadValue := none
  jsonUnmarshal := fun value => .ok { content := value }
  isVerbosityDebug := false
  buildDebugStr := fun _ => .ok (goBytes "model")
  configureClient := none
  getProjectName := .ok (goBytes "my-project")
  promptForConfirmation := fun _ => answer
  skcfClient := { ListClustersExecute := fun _ => (some { Items := some [] }, none) }
  createExecute := fun _ clusterName _ => (some { Name := some clusterName }, none)
  waitWithContext := fun _ _ => none
  quote := fun text => goBytes "\"" ++ text ++ goBytes "\""
  JSONOutputFormat := goBytes "json"
  YAMLOutputFormat := goBytes "yaml"
  jsonMarshalIndent := fun _ => .ok (goBytes "json text")
  yamlMarshal := fun _ => .ok (goBytes "yaml text")

/-- A run of `argus credentials create --instance-id i1` in project `p1` in which every
collaborator succeeds; the flag `AssumeYes` and the answer of the prompt are left open. -/
def exampleCredentialsEnv (assumeYes : Bool) (answer : Option GoError) : CredentialsEnv where
  globalFlags :=
    { Async := false, AssumeYes := assumeYes, OutputFormat := goBytes "pretty",
      ProjectId := goBytes "p1" }
  instanceId := goBytes "i1"
  configureClient := none
  getInstanceName := fun _ _ => .ok (goBytes "my-instance")
  promptForConfirmation := fun _ => answer
  createExecute := fun _ _ =>
    (some ⟨some ⟨some (goBytes "user"), some (goBytes "secret")⟩⟩, none)
  quote := fun text => goBytes "\"" ++ text ++ goBytes "\""

/-- The example run of `skcf cluster create my-cluster` with `AssumeYes` set and `Async`
unset, against the API client `client` and the wait handler answer `waited`. -/
def exampleCreateEnvWith (client : SKCFClient) (waited : Option GoError) : CreateEnv :=
  { exampleCreateEnv false true none with
    skcfClient := client
    waitWithContext := fun _ _ => waited }

/-- An API client in whose project the cluster `my-cluster` is already listed. -/
def exampleExistingClient : SKCFClient where
  ListClustersExecute := fun _ =>
    (some ⟨some [⟨some (goBytes "other")⟩, ⟨some (goBytes "my-cluster")⟩]⟩, none)

/-- An API client that lists no cluster. -/
def exampleEmptyClient : SKCFClient where
  ListClustersExecute := fun _ => (some ⟨some []⟩, none)

/-! ## The wait handler (specification, sections 3, 4.2 and 7)

The command calls `wait.CreateOrUpdateClusterWaitHandler(...).WaitWithContext(ctx)`; the
handler itself is not among the repository's files, so it is modelled from the
specification. -/

/-- Modelled from the spec: the wait handler's `OperationStatus` of section 3, whose code is
missing: "a tagged value read from the status endpoint on each poll. Variants: `Pending`,
`InProgress`, `Succeeded(result)`, `Failed(reason)`". -/
inductive OperationStatus (ρ : Type) where
  | Pending
  | InProgress
  | Succeeded (result : ρ)
  | Failed (reason : GoString)
  deriving DecidableEq, Repr

/-- Modelled from the spec: the errors a wait ends with, of section 7, whose code is
missing: `StatusQueryFailed` with its cause, `OperationFailed(reason)`, `Cancelled` and
`Timeout`. -/
inductive WaitError where
  | StatusQueryFailed (cause : GoError)
  | OperationFailed (reason : GoString)
  | Cancelled
  | Timeout
  deriving DecidableEq, Repr

/-- Modelled from the spec: the `PollingPolicy` of section 3, whose code is missing: the
`interval` between polls and the optional overall bound `maxElapsed`, both in one unit of
time. -/
structure PollingPolicy where
  interval : Nat
  maxElapsed : Option Nat
  deriving DecidableEq, Repr

/-- Modelled from the spec: what the wait handler of section 4.2, whose code is missing,
does to the outside: the `n`-th status query (counted from 0) and a suspension for a
duration. -/
inductive WaitEvent where
  | query (n : Nat)
  | sleep (duration : Nat)
  deriving DecidableEq, Repr

/-- The event is a status query. -/
def WaitEvent.isQuery : WaitEvent → Bool
  | .query _ => true
  | .sleep _ => false

/-- The event is a suspension. -/
def WaitEvent.isSleep : WaitEvent → Bool
  | .query _ => false
  | .sleep _ => true

/-- Modelled from the spec: the classification of a poll result by the wait handler of
section 4.2, whose code is missing: "On `Succeeded(result)`: return the carried result",
"On `Failed(reason)`: return `Error(OperationFailed(reason))`", and `Pending` and
`InProgress` are not terminal (`none`). -/
def classify {ρ : Type} : OperationStatus ρ → Option (Except WaitError ρ)
  | .Pending => none
  | .InProgress => none
  | .Succeeded result => some (.ok result)
  | .Failed reason => some (.error (.OperationFailed reason))

/-- Modelled from the spec: the test of the deadline by the wait handler of section 4.2,
whose code is missing: "if `policy.maxElapsed` is configured and exceeded". -/
def deadlineExceeded (policy : PollingPolicy) (elapsed : Nat) : Bool :=
  match policy.maxElapsed with
  | some bound => decide (bound < elapsed)
  | none => false

/-- Modelled from the spec: the state `Polling` of the wait handler of section 4.2, whose
code is missing.  `statusClient n` is the answer of the `n`-th status query, `cancel t` says
whether the cancellation is signaled once the time `t` has elapsed, and the elapsed time
advances by the suspensions.  Before each query the cancellation and the deadline are
tested; a transport error of the query is fatal; a terminal status ends the wait; on
`Pending` and `InProgress` the handler suspends for `policy.interval` and polls again.
`fuel` bounds the number of polls; the result `none` says that it ran out. -/
def waitLoop {ρ : Type} (statusClient : Nat → Except GoError (OperationStatus ρ))
    (policy : PollingPolicy) (cancel : Nat → Bool) :
    Nat → Nat → Nat → List WaitEvent × Option (Except WaitError ρ)
  | 0, _, _ => ([], none)
  | fuel + 1, n, elapsed =>
    if cancel elapsed then ([], some (.error .Cancelled))
    else if deadlineExceeded policy elapsed then ([], some (.error .Timeout))
    else
      match statusClient n with
      | .error cause => ([.query n], some (.error (.StatusQueryFailed cause)))
      | .ok status =>
        match classify status with
        | some outcome => ([.query n], some outcome)
        | none =>
          let next := waitLoop statusClient policy cancel fuel (n + 1) (elapsed + policy.interval)
          (.query n :: .sleep policy.interval :: next.1, next.2)

/-- Modelled from the spec: the contract `wait(handle, statusClient, policy, cancel)` of the
wait handler of section 4.2, whose code is missing: the state `Polling` is "entered
immediately on call", with the first query and no time elapsed. -/
def WaitHandler {ρ : Type} (fuel : Nat)
    (statusClient : Nat → Except GoError (OperationStatus ρ)) (policy : PollingPolicy)
    (cancel : Nat → Bool) : List WaitEvent × Option (Except WaitError ρ) :=
  waitLoop statusClient policy cancel fuel 0 0

/-- The context `context.Background()` that `RunE` passes to `WaitWithContext`: it is never
cancelled. -/
def backgroundContext : Nat → Bool := fun _ => false

/-- The events of a wait that meets `k` non-terminal statuses and then a terminal one,
from the `n`-th query on: `k` times a query and a suspension, then one last query. -/
def pollTrace (interval : Nat) : Nat → Nat → List WaitEvent
  | n, 0 => [.query n]
  | n, k + 1 => .query n :: .sleep interval :: pollTrace interval (n + 1) k

/-- The status client that answers the queries with the statuses of a list in order, and
with `Pending` once the list is used up. -/
def statusesOf {ρ : Type} (statuses : List (OperationStatus ρ)) :
    Nat → Except GoError (OperationStatus ρ) :=
  fun n => .ok (statuses.getD n .Pending)

/-! ## Lemmas on `ParseUint` -/

theorem digitVal_of_isDigit {c : UInt8} (h : isDigit c) : digitVal c = some (c.toNat - 48) := by
  unfold isDigit at h
  simp [digitVal, h]

theorem digitVal_of_not_isDigit {c : UInt8} (h : ¬ isDigit c) :
    digitVal c = none ∨ ∃ d, digitVal c = some d ∧ 10 ≤ d := by
  unfold isDigit at h
  unfold digitVal
  rw [if_neg h]
  split
  · exact Or.inr ⟨_, rfl, by omega⟩
  · exact Or.inl rfl

theorem decValFrom_nil (a : Nat) : decValFrom a [] = a := rfl

theorem decValFrom_cons (a : Nat) (c : UInt8) (ds : GoString) :
    decValFrom a (c :: ds) = decValFrom (a * 10 + (c.toNat - 48)) ds := rfl

theorem decValFrom_append (a : Nat) (xs ys : GoString) :
    decValFrom a (xs ++ ys) = decValFrom (decValFrom a xs) ys := by
  simp [decValFrom, List.foldl_append]

theorem le_decValFrom (ds : GoString) : ∀ a : Nat, a ≤ decValFrom a ds := by
  induction ds with
  | nil => intro a; exact Nat.le_refl _
  | cons c rest ih =>
    intro a
    rw [decValFrom_cons]
    have := ih (a * 10 + (c.toNat - 48))
    omega

/-- The loop of `ParseUint` started from an in-range accumulator returns a value
exactly on digit strings whose value stays within `uint64`, and then returns that
value. -/
theorem parseUintLoop_eq_ok_iff (ds : GoString) :
    ∀ (n v : Nat), n < 2 ^ 64 →
      (parseUintLoop ds n = .ok v ↔
        (∀ c ∈ ds, isDigit c) ∧ decValFrom n ds < 2 ^ 64 ∧ v = decValFrom n ds) := by
  induction ds with
  | nil =>
    intro n v hn
    simp only [parseUintLoop, decValFrom_nil, List.not_mem_nil, false_implies, implies_true,
      true_and, Except.ok.injEq]
    constructor
    · intro h; exact ⟨hn, h.symm⟩
    · intro h; exact h.2.symm
  | cons c rest ih =>
    intro n v hn
    by_cases hc : isDigit c
    · have hd : c.toNat - 48 < 10 := by unfold isDigit at hc; omega
      rw [parseUintLoop, digitVal_of_isDigit hc, decValFrom_cons]
      simp only [ge_iff_le, List.mem_cons, forall_eq_or_imp, hc, true_and]
      rw [if_neg (by omega)]
      by_cases hcut : cutoff ≤ n
      · rw [if_pos hcut]
        have h1 := le_decValFrom rest (n * 10 + (c.toNat - 48))
        have h2 : cutoff = 1844674407370955162 := by decide
        constructor
        · intro h; cases h
        · intro h; omega
      · rw [if_neg hcut]
        have h2 : cutoff = 1844674407370955162 := by decide
        have h3 : maxUint64 = 18446744073709551615 := rfl
        have h10 : n * 10 % 2 ^ 64 = n * 10 := Nat.mod_eq_of_lt (by omega)
        simp only [h10]
        by_cases hov : n * 10 + (c.toNat - 48) < 2 ^ 64
        · have h11 : (n * 10 + (c.toNat - 48)) % 2 ^ 64 = n * 10 + (c.toNat - 48) :=
            Nat.mod_eq_of_lt hov
          rw [h11, if_neg (by omega)]
          exact ih _ v hov
        · have h1 := le_decValFrom rest (n * 10 + (c.toNat - 48))
          rw [if_pos (by omega)]
          constructor
          · intro h; cases h
          · intro h; omega
    · have : parseUintLoop (c :: rest) n = .error .syntaxError := by
        rw [parseUintLoop]
        rcases digitVal_of_not_isDigit hc with h | ⟨d, h, hd⟩
        · rw [h]
        · rw [h]; simp only [ge_iff_le]; rw [if_pos hd]
      rw [this]
      constructor
      · intro h; cases h
      · intro h; exact absurd (h.1 c (List.mem_cons_self _ _)) hc

/-- The call `ParseUint(s, 10, 64)` succeeds exactly on decimal magnitudes of value at
most `2^64 - 1`, and returns the value. -/
theorem ParseUint_eq_ok_iff (s : GoString) (v : Nat) :
    ParseUint s = .ok v ↔ isDecimal s ∧ decVal s < 2 ^ 64 ∧ v = decVal s := by
  unfold ParseUint isDecimal decVal
  by_cases hs : s = []
  · simp [hs]
  · rw [if_neg hs, parseUintLoop_eq_ok_iff s 0 v (by decide)]
    simp [hs]

theorem ParseUint_ok {s : GoString} (h : isDecimal s) (hv : decVal s < 2 ^ 64) :
    ParseUint s = .ok (decVal s) :=
  (ParseUint_eq_ok_iff s _).2 ⟨h, hv, rfl⟩

/-! ## Lemmas on `ConvertToSeconds` -/

theorem unitMultiplier_eq_some_iff (u : UInt8) (k : Nat) :
    unitMultiplier u = some k ↔
      (u = 115 ∧ k = 1) ∨ (u = 109 ∧ k = 60) ∨ (u = 104 ∧ k = 3600) ∨
        (u = 100 ∧ k = 86400) ∨ (u = 77 ∧ k = 2592000) := by
  have hs : goBytes "s" = [115] := by decide
  have hm : goBytes "m" = [109] := by decide
  have hh : goBytes "h" = [104] := by decide
  have hd : goBytes "d" = [100] := by decide
  have hM : goBytes "M" = [77] := by decide
  unfold unitMultiplier
  rw [hs, hm, hh, hd, hM]
  simp only [List.cons.injEq, and_true]
  by_cases h1 : u = 115
  · subst h1; simp; omega
  by_cases h2 : u = 109
  · subst h2; simp; omega
  by_cases h3 : u = 104
  · subst h3; simp; omega
  by_cases h4 : u = 100
  · subst h4; simp; omega
  by_cases h5 : u = 77
  · subst h5; simp; omega
  simp [h1, h2, h3, h4, h5]

/-- On an input with a non-empty prefix `ds` and last byte `u`, `ConvertToSeconds` is
`ParseUint` on `ds` followed by the unit switch on `u`. -/
theorem ConvertToSeconds_snoc (ds : GoString) (u : UInt8) (hds : ds ≠ []) :
    ConvertToSeconds (ds ++ [u]) =
      match ParseUint ds with
      | .error _ => .error (.invalidTimeValue ds)
      | .ok value =>
        match unitMultiplier u with
        | some k => .ok (FormatUint (value * k % 2 ^ 64))
        | none => .error (.invalidTimeUnit [u]) := by
  have hlen : ¬ (ds ++ [u]).length < 2 := by
    cases ds with
    | nil => exact absurd rfl hds
    | cons c rest => simp
  have hdrop : (ds ++ [u]).drop ((ds ++ [u]).length - 1) = [u] := by simp
  have htake : (ds ++ [u]).take ((ds ++ [u]).length - 1) = ds := by simp
  unfold ConvertToSeconds
  rw [if_neg hlen]
  simp only [hdrop, htake]
  cases ParseUint ds with
  | error e => rfl
  | ok value =>
    have hs : goBytes "s" = [115] := by decide
    have hm : goBytes "m" = [109] := by decide
    have hh : goBytes "h" = [104] := by decide
    have hd : goBytes "d" = [100] := by decide
    have hM : goBytes "M" = [77] := by decide
    simp only [unitMultiplier, hs, hm, hh, hd, hM, List.cons.injEq, and_true]
    by_cases h1 : u = 115
    · simp [h1]
    by_cases h2 : u = 109
    · simp [h2]
    by_cases h3 : u = 104
    · simp [h3]
    by_cases h4 : u = 100
    · simp [h4]
    by_cases h5 : u = 77
    · simp [h5]
    simp [h1, h2, h3, h4, h5]

/-- Every string of at least two bytes is a non-empty prefix followed by its last byte. -/
theorem exists_snoc_of_two_le_length (s : GoString) (h : ¬ s.length < 2) :
    ∃ ds u, ds ≠ [] ∧ s = ds ++ [u] ∧ ds = s.dropLast ∧ s.getLast? = some u := by
  have hne : s ≠ [] := by intro h0; subst h0; simp at h
  refine ⟨s.dropLast, s.getLast hne, ?_, (List.dropLast_append_getLast hne).symm, rfl,
    List.getLast?_eq_getLast _ hne⟩
  intro h0
  have := congrArg List.length h0
  simp at this
  omega

/-- Complete characterisation of the successful runs of `ConvertToSeconds`. -/
theorem ConvertToSeconds_eq_ok_iff (s r : GoString) :
    ConvertToSeconds s = .ok r ↔
      ∃ ds u k, s = ds ++ [u] ∧ isDecimal ds ∧ decVal ds < 2 ^ 64 ∧ unitMultiplier u = some k ∧
        r = FormatUint (decVal ds * k % 2 ^ 64) := by
  constructor
  · intro h
    by_cases hlen : s.length < 2
    · simp [ConvertToSeconds, hlen] at h
    · obtain ⟨ds, u, hds, hs, -, -⟩ := exists_snoc_of_two_le_length s hlen
      subst hs
      rw [ConvertToSeconds_snoc ds u hds] at h
      cases hp : ParseUint ds with
      | error e => rw [hp] at h; cases h
      | ok v =>
        rw [hp] at h
        obtain ⟨hdec, hv, rfl⟩ := (ParseUint_eq_ok_iff ds v).1 hp
        cases hm : unitMultiplier u with
        | none => rw [hm] at h; cases h
        | some k =>
          rw [hm] at h
          simp only [Except.ok.injEq] at h
          exact ⟨ds, u, k, rfl, hdec, hv, hm, h.symm⟩
  · rintro ⟨ds, u, k, rfl, hdec, hv, hm, rfl⟩
    rw [ConvertToSeconds_snoc ds u hdec.1, ParseUint_ok hdec hv, hm]

/-! ## Lemmas on `FormatUint` -/

theorem toNat_ofNat_digit (d : Nat) (h : d < 10) : (UInt8.ofNat (48 + d)).toNat = 48 + d := by
  have h1 := UInt8.toNat_ofNat (48 + d)
  simp only [UInt8.size] at h1
  show (OfNat.ofNat (48 + d) : UInt8).toNat = 48 + d
  omega

theorem isDigit_ofNat_digit (d : Nat) (h : d < 10) : isDigit (UInt8.ofNat (48 + d)) := by
  unfold isDigit
  rw [toNat_ofNat_digit d h]
  omega

/-- With fuel for the digits of `n`, `formatBits` pushes in front of `acc` a decimal
magnitude that denotes `n` and starts with `'0'` only when `n = 0`. -/
theorem formatBits_spec (fuel : Nat) :
    ∀ (n : Nat) (acc : GoString), n < 10 ^ fuel → 0 < fuel →
      ∃ ds, formatBits fuel n acc = ds ++ acc ∧ isDecimal ds ∧ decVal ds = n ∧
        (ds.head? = some 48 → n = 0) := by
  induction fuel with
  | zero => intro n acc _ h; exact absurd h (Nat.lt_irrefl 0)
  | succ fuel ih =>
    intro n acc hn _
    by_cases hlt : n < 10
    · refine ⟨[UInt8.ofNat (48 + n)], ?_, ⟨by simp, ?_⟩, ?_, ?_⟩
      · simp [formatBits, hlt]
      · intro c hc
        simp only [List.mem_singleton] at hc
        subst hc
        exact isDigit_ofNat_digit n hlt
      · simp [decVal, decValFrom, toNat_ofNat_digit n hlt]
      · intro h
        simp only [List.head?_cons, Option.some.injEq] at h
        have h2 := congrArg UInt8.toNat h
        rw [toNat_ofNat_digit n hlt] at h2
        have h3 : (48 : UInt8).toNat = 48 := by decide
        omega
    · have hfuel : 0 < fuel := by
        rcases Nat.eq_zero_or_pos fuel with h0 | h0
        · subst h0; simp at hn; omega
        · exact h0
      have hdiv : n / 10 < 10 ^ fuel := by
        rw [Nat.pow_succ] at hn
        omega
      obtain ⟨ds, hds, hdec, hval, hhead⟩ :=
        ih (n / 10) (UInt8.ofNat (48 + n % 10) :: acc) hdiv hfuel
      have hmod : n % 10 < 10 := Nat.mod_lt _ (by decide)
      refine ⟨ds ++ [UInt8.ofNat (48 + n % 10)], ?_, ⟨by simp, ?_⟩, ?_, ?_⟩
      · rw [formatBits, if_neg hlt, hds]
        simp
      · intro c hc
        rcases List.mem_append.1 hc with hc | hc
        · exact hdec.2 c hc
        · simp only [List.mem_singleton] at hc
          subst hc
          exact isDigit_ofNat_digit _ hmod
      · unfold decVal at hval ⊢
        rw [decValFrom_append, hval, decValFrom_cons, decValFrom_nil, toNat_ofNat_digit _ hmod]
        omega
      · intro h
        have hne := hdec.1
        cases ds with
        | nil => exact absurd rfl hne
        | cons c rest =>
          simp only [List.cons_append, List.head?_cons, Option.some.injEq] at h
          have := hhead (by simp [h])
          omega

/-- For a `uint64`, the 20 digits of fuel suffice: `FormatUint n` is a decimal
magnitude that denotes `n`, without a leading zero unless `n = 0`. -/
theorem FormatUint_spec (n : Nat) (h : n < 2 ^ 64) :
    isDecimal (FormatUint n) ∧ decVal (FormatUint n) = n ∧
      ((FormatUint n).head? = some 48 → n = 0) := by
  obtain ⟨ds, hds, hdec, hval, hhead⟩ :=
    formatBits_spec 20 n [] (by omega) (by decide)
  unfold FormatUint
  rw [hds, List.append_nil]
  exact ⟨hdec, hval, hhead⟩

/-- Reading back what `FormatUint` wrote gives the number again. -/
theorem ParseUint_FormatUint (n : Nat) (h : n < 2 ^ 64) : ParseUint (FormatUint n) = .ok n := by
  obtain ⟨hdec, hval, -⟩ := FormatUint_spec n h
  have := ParseUint_ok hdec (by rw [hval]; exact h)
  rw [hval] at this
  exact this

/-! ## Leading zeros -/

theorem decValFrom_zeros (k : Nat) (ds : GoString) :
    decValFrom 0 (List.replicate k 48 ++ ds) = decValFrom 0 ds := by
  induction k with
  | zero => rfl
  | succ k ih =>
    rw [List.replicate_succ, List.cons_append, decValFrom_cons]
    exact ih

theorem isDecimal_zeros_append (k : Nat) {ds : GoString} (h : isDecimal ds) :
    isDecimal (List.replicate k 48 ++ ds) := by
  refine ⟨?_, ?_⟩
  · intro h0
    exact h.1 (List.append_eq_nil.1 h0).2
  · intro c hc
    rcases List.mem_append.1 hc with hc | hc
    · rw [(List.mem_replicate.1 hc).2]
      decide
    · exact h.2 c hc

theorem one_le_of_unitMultiplier {u : UInt8} {k : Nat} (h : unitMultiplier u = some k) :
    1 ≤ k := by
  rcases (unitMultiplier_eq_some_iff u k).1 h with h | h | h | h | h <;> omega

/-! ## Claims about `ConvertToSeconds` -/

/-- C1, as amended: for every input made of a decimal magnitude `ds` of value `v` followed by
one unit byte `u` of multiplier `k` with `v * k ≤ 2^64 - 1`, `ConvertToSeconds` succeeds and
returns `FormatUint (v * k)`, a decimal magnitude that denotes `v * k`. -/
theorem ConvertToSeconds_value_times_multiplier (ds : GoString) (u : UInt8) (k : Nat)
    (hds : isDecimal ds) (hu : unitMultiplier u = some k) (hprod : decVal ds * k < 2 ^ 64) :
    ConvertToSeconds (ds ++ [u]) = .ok (FormatUint (decVal ds * k)) ∧
      isDecimal (FormatUint (decVal ds * k)) ∧
      decVal (FormatUint (decVal ds * k)) = decVal ds * k := by
  have hk := one_le_of_unitMultiplier hu
  have hv : decVal ds < 2 ^ 64 := lt_of_le_of_lt (Nat.le_mul_of_pos_right _ hk) hprod
  have hspec := FormatUint_spec _ hprod
  refine ⟨?_, hspec.1, hspec.2.1⟩
  rw [ConvertToSeconds_snoc ds u hds.1, ParseUint_ok hds hv, hu]
  simp only [Nat.mod_eq_of_lt hprod]

/-- The amended C1 at `"30M"`: the result is `"77760000"`. -/
theorem ConvertToSeconds_value_times_multiplier_witness :
    ConvertToSeconds (goBytes "30" ++ [77]) = .ok (FormatUint (decVal (goBytes "30") * 2592000)) ∧
      isDecimal (FormatUint (decVal (goBytes "30") * 2592000)) ∧
      decVal (FormatUint (decVal (goBytes "30") * 2592000)) = decVal (goBytes "30") * 2592000 :=
  ConvertToSeconds_value_times_multiplier (goBytes "30") 77 2592000 (by decide) (by decide)
    (by decide)

/-- C1 as stated fails on two inputs made of a decimal magnitude and a unit: the magnitude
`2^64` followed by `s` is rejected, and the magnitude `2^64 - 1` followed by `m` is accepted
with a result that does not denote `(2^64 - 1) * 60`. -/
theorem ConvertToSeconds_large_magnitude_counterexample :
    (isDecimal (goBytes "18446744073709551616") ∧ unitMultiplier 115 = some 1 ∧
      goBytes "18446744073709551616s" = goBytes "18446744073709551616" ++ [115] ∧
      ConvertToSeconds (goBytes "18446744073709551616s")
        = .error (.invalidTimeValue (goBytes "18446744073709551616"))) ∧
    (isDecimal (goBytes "18446744073709551615") ∧ unitMultiplier 109 = some 60 ∧
      goBytes "18446744073709551615m" = goBytes "18446744073709551615" ++ [109] ∧
      decVal (goBytes "18446744073709551615") = 18446744073709551615 ∧
      ConvertToSeconds (goBytes "18446744073709551615m")
        = .ok (goBytes "18446744073709551556") ∧
      decVal (goBytes "18446744073709551556") ≠ 18446744073709551615 * 60) := by
  decide

/-- C2: every input that is shorter than two bytes, or whose prefix before the last byte is
not a decimal magnitude, or whose last byte has no multiplier (is not one of `s`, `m`, `h`,
`d`, `M`), makes `ConvertToSeconds` return an error (and so no value). -/
theorem ConvertToSeconds_rejects_malformed (s : GoString)
    (h : s.length < 2 ∨ ¬ isDecimal s.dropLast ∨
      (∀ u, s.getLast? = some u → unitMultiplier u = none)) :
    ∃ e, ConvertToSeconds s = .error e := by
  by_cases hlen : s.length < 2
  · exact ⟨.invalidTime s, by simp [ConvertToSeconds, hlen]⟩
  · obtain ⟨ds, u, hds, hs, hdrop, hlast⟩ := exists_snoc_of_two_le_length s hlen
    rw [← hdrop] at h
    rw [hs, ConvertToSeconds_snoc ds u hds]
    cases hp : ParseUint ds with
    | error e => exact ⟨_, rfl⟩
    | ok v =>
      have hdec := ((ParseUint_eq_ok_iff ds v).1 hp).1
      rcases h with h | h | h
      · exact absurd h hlen
      · exact absurd hdec h
      · rw [h u hlast]
        exact ⟨_, rfl⟩

/-- C2 at `"3000abcdef"`, whose prefix `"3000abcde"` is not a decimal magnitude. -/
theorem ConvertToSeconds_rejects_malformed_witness :
    ∃ e, ConvertToSeconds (goBytes "3000abcdef") = .error e :=
  ConvertToSeconds_rejects_malformed (goBytes "3000abcdef") (Or.inr (Or.inl (by decide)))

/-- C3: every accepted input is a decimal magnitude of value `v ≤ 2^64 - 1` followed by a
unit of multiplier `k`, and the result is `FormatUint ((v * k) mod 2^64)`, which denotes
`(v * k) mod 2^64`; and such an input whose product `v * k` exceeds `2^64 - 1` is accepted,
not rejected. -/
theorem ConvertToSeconds_wraps_modulo_two_pow_64 :
    (∀ s r, ConvertToSeconds s = .ok r →
      ∃ ds u k, s = ds ++ [u] ∧ isDecimal ds ∧ decVal ds < 2 ^ 64 ∧ unitMultiplier u = some k ∧
        r = FormatUint (decVal ds * k % 2 ^ 64) ∧ decVal r = decVal ds * k % 2 ^ 64) ∧
    (∀ ds u k, isDecimal ds → decVal ds < 2 ^ 64 → unitMultiplier u = some k →
      2 ^ 64 ≤ decVal ds * k →
        ConvertToSeconds (ds ++ [u]) = .ok (FormatUint (decVal ds * k % 2 ^ 64))) := by
  constructor
  · intro s r h
    obtain ⟨ds, u, k, hs, hdec, hv, hu, hr⟩ := (ConvertToSeconds_eq_ok_iff s r).1 h
    refine ⟨ds, u, k, hs, hdec, hv, hu, hr, ?_⟩
    rw [hr]
    exact (FormatUint_spec _ (Nat.mod_lt _ (by decide))).2.1
  · intro ds u k hdec hv hu _
    exact (ConvertToSeconds_eq_ok_iff _ _).2 ⟨ds, u, k, rfl, hdec, hv, hu, rfl⟩

/-- C3 at `"18446744073709551615m"`: the product `(2^64 - 1) * 60` wraps to `2^64 - 60`. -/
theorem ConvertToSeconds_wraps_modulo_two_pow_64_witness :
    (∃ ds u k, goBytes "18446744073709551615m" = ds ++ [u] ∧ isDecimal ds ∧
        decVal ds < 2 ^ 64 ∧ unitMultiplier u = some k ∧
        goBytes "18446744073709551556" = FormatUint (decVal ds * k % 2 ^ 64) ∧
        decVal (goBytes "18446744073709551556") = decVal ds * k % 2 ^ 64) ∧
    ConvertToSeconds (goBytes "18446744073709551615" ++ [109])
      = .ok (FormatUint (decVal (goBytes "18446744073709551615") * 60 % 2 ^ 64)) :=
  ⟨ConvertToSeconds_wraps_modulo_two_pow_64.1 (goBytes "18446744073709551615m")
      (goBytes "18446744073709551556") (by decide),
    ConvertToSeconds_wraps_modulo_two_pow_64.2 (goBytes "18446744073709551615") 109 60
      (by decide) (by decide) (by decide) (by decide)⟩

/-- C4: if `ConvertToSeconds` accepts `s` with result `r`, then for every `k` it accepts `s`
with `k` bytes `'0'` prepended, with the same result `r`. -/
theorem ConvertToSeconds_leading_zeros (s r : GoString) (k : Nat)
    (h : ConvertToSeconds s = .ok r) :
    ConvertToSeconds (List.replicate k 48 ++ s) = .ok r := by
  obtain ⟨ds, u, m, hs, hdec, hv, hu, hr⟩ := (ConvertToSeconds_eq_ok_iff s r).1 h
  refine (ConvertToSeconds_eq_ok_iff _ _).2
    ⟨List.replicate k 48 ++ ds, u, m, ?_, isDecimal_zeros_append k hdec, ?_, hu, ?_⟩
  · rw [hs, List.append_assoc]
  · unfold decVal at hv ⊢
    rw [decValFrom_zeros]
    exact hv
  · unfold decVal at hr ⊢
    rw [decValFrom_zeros]
    exact hr

/-- C4 at `"30M"` with two zeros prepended: `"0030M"` gives `"77760000"` as well. -/
theorem ConvertToSeconds_leading_zeros_witness :
    ConvertToSeconds (goBytes "30M") = .ok (goBytes "77760000") ∧
      ConvertToSeconds (List.replicate 2 48 ++ goBytes "30M") = .ok (goBytes "77760000") :=
  ⟨by decide,
    ConvertToSeconds_leading_zeros (goBytes "30M") (goBytes "77760000") 2 (by decide)⟩

theorem unitMultiplier_upper_case :
    unitMultiplier 83 = none ∧ unitMultiplier 72 = none ∧ unitMultiplier 68 = none := by
  decide

theorem ConvertToSeconds_error_of_no_multiplier (ds : GoString) (u : UInt8) (hds : ds ≠ [])
    (hu : unitMultiplier u = none) : ∃ e, ConvertToSeconds (ds ++ [u]) = .error e := by
  rw [ConvertToSeconds_snoc ds u hds, hu]
  cases ParseUint ds with
  | error e => exact ⟨_, rfl⟩
  | ok v => exact ⟨_, rfl⟩

/-- C5: the unit is one case-sensitive byte.  For every decimal magnitude `ds` of value `n`:
if `n * 60 ≤ 2^64 - 1` then `ds` followed by `m` yields `n * 60`; if
`n * 2592000 ≤ 2^64 - 1` then `ds` followed by `M` yields `n * 2592000` and `ds`
followed by `d` yields `n * 86400`, the former being exactly 30 times the latter; and `ds`
followed by `S`, `H` or `D` is rejected. -/
theorem ConvertToSeconds_unit_case_sensitive (ds : GoString) (hds : isDecimal ds) :
    (decVal ds * 60 < 2 ^ 64 →
      ConvertToSeconds (ds ++ goBytes "m") = .ok (FormatUint (decVal ds * 60))) ∧
    (decVal ds * 2592000 < 2 ^ 64 →
      ConvertToSeconds (ds ++ goBytes "M") = .ok (FormatUint (decVal ds * 2592000)) ∧
      ConvertToSeconds (ds ++ goBytes "d") = .ok (FormatUint (decVal ds * 86400)) ∧
      decVal ds * 2592000 = 30 * (decVal ds * 86400)) ∧
    (∃ e, ConvertToSeconds (ds ++ goBytes "S") = .error e) ∧
    (∃ e, ConvertToSeconds (ds ++ goBytes "H") = .error e) ∧
    (∃ e, ConvertToSeconds (ds ++ goBytes "D") = .error e) := by
  have hm : goBytes "m" = [109] := by decide
  have hM : goBytes "M" = [77] := by decide
  have hd : goBytes "d" = [100] := by decide
  have hS : goBytes "S" = [83] := by decide
  have hH : goBytes "H" = [72] := by decide
  have hD : goBytes "D" = [68] := by decide
  rw [hm, hM, hd, hS, hH, hD]
  refine ⟨?_, ?_, ?_, ?_, ?_⟩
  · intro h
    exact (ConvertToSeconds_eq_ok_iff _ _).2
      ⟨ds, 109, 60, rfl, hds, by omega, by decide, by rw [Nat.mod_eq_of_lt h]⟩
  · intro h
    have h2 : decVal ds * 86400 < 2 ^ 64 := by omega
    refine ⟨?_, ?_, by omega⟩
    · exact (ConvertToSeconds_eq_ok_iff _ _).2
        ⟨ds, 77, 2592000, rfl, hds, by omega, by decide, by rw [Nat.mod_eq_of_lt h]⟩
    · exact (ConvertToSeconds_eq_ok_iff _ _).2
        ⟨ds, 100, 86400, rfl, hds, by omega, by decide, by rw [Nat.mod_eq_of_lt h2]⟩
  · exact ConvertToSeconds_error_of_no_multiplier ds 83 hds.1 unitMultiplier_upper_case.1
  · exact ConvertToSeconds_error_of_no_multiplier ds 72 hds.1 unitMultiplier_upper_case.2.1
  · exact ConvertToSeconds_error_of_no_multiplier ds 68 hds.1 unitMultiplier_upper_case.2.2

/-- C5 at the magnitude `"30"`: `"30m"` gives `"1800"`, `"30M"` gives `"77760000"`, `"30d"`
gives `"2592000"`, and `"30S"`, `"30H"`, `"30D"` are rejected. -/
theorem ConvertToSeconds_unit_case_sensitive_witness :
    ConvertToSeconds (goBytes "30" ++ goBytes "m") = .ok (goBytes "1800") ∧
    ConvertToSeconds (goBytes "30" ++ goBytes "M") = .ok (goBytes "77760000") ∧
    ConvertToSeconds (goBytes "30" ++ goBytes "d") = .ok (goBytes "2592000") ∧
    (∃ e, ConvertToSeconds (goBytes "30" ++ goBytes "S") = .error e) ∧
    (∃ e, ConvertToSeconds (goBytes "30" ++ goBytes "H") = .error e) ∧
    (∃ e, ConvertToSeconds (goBytes "30" ++ goBytes "D") = .error e) :=
  have h := ConvertToSeconds_unit_case_sensitive (goBytes "30") (by decide)
  ⟨h.1 (by decide), (h.2.1 (by decide)).1, (h.2.1 (by decide)).2.1, h.2.2.1, h.2.2.2.1,
    h.2.2.2.2⟩

/-! ## Claims about `ClusterExists` -/

theorem rangeItems_eq_true_iff (items : List Cluster) (clusterName : GoString) :
    rangeItems items clusterName = true ↔ ∃ cl ∈ items, cl.Name = some clusterName := by
  induction items with
  | nil => simp [rangeItems]
  | cons cl rest ih =>
    rw [rangeItems]
    cases hn : cl.Name with
    | none => simp [ih, hn]
    | some name =>
      by_cases hname : name = clusterName
      · simp [hname, hn]
      · simp [hname, hn, ih]

/-- C6: when the list call succeeds with a response whose item list is present,
`ClusterExists` returns `(true, nil)` if and only if some listed cluster has a name that is
set and equal to the given name, and `(false, nil)` otherwise; in particular a match at any
position of the list gives `(true, nil)`. -/
theorem ClusterExists_iff_listed (apiClient : SKCFClient) (projectId clusterName : GoString)
    (items : List Cluster)
    (h : apiClient.ListClustersExecute projectId = (some { Items := some items }, none)) :
    (ClusterExists apiClient projectId clusterName = .ret (true, none) ↔
      ∃ cl ∈ items, cl.Name = some clusterName) ∧
    (ClusterExists apiClient projectId clusterName = .ret (false, none) ↔
      ¬ ∃ cl ∈ items, cl.Name = some clusterName) ∧
    (∀ pre post cl, items = pre ++ cl :: post → cl.Name = some clusterName →
      ClusterExists apiClient projectId clusterName = .ret (true, none)) := by
  have hce : ClusterExists apiClient projectId clusterName
      = .ret (rangeItems items clusterName, none) := by
    simp [ClusterExists, h]
  have hiff := rangeItems_eq_true_iff items clusterName
  refine ⟨?_, ?_, ?_⟩
  · rw [hce, ← hiff]
    simp
  · rw [hce, ← hiff]
    simp
  · intro pre post cl hitems hname
    rw [hce, hiff.2 ⟨cl, by simp [hitems], hname⟩]

/-- C6 on the second test case: the name `test-cluster` is found in third position. -/
theorem ClusterExists_iff_listed_witness :
    ClusterExists
        { ListClustersExecute := fun _ =>
            (some { Items := some [{ Name := some (goBytes "some-cluster") },
              { Name := some (goBytes "some-other-cluster") },
              { Name := some (goBytes "test-cluster") }] }, none) }
        (goBytes "project") (goBytes "test-cluster") = .ret (true, none) :=
  (ClusterExists_iff_listed
      { ListClustersExecute := fun _ =>
          (some { Items := some [{ Name := some (goBytes "some-cluster") },
            { Name := some (goBytes "some-other-cluster") },
            { Name := some (goBytes "test-cluster") }] }, none) }
      (goBytes "project") (goBytes "test-cluster") _ rfl).2.2
    [{ Name := some (goBytes "some-cluster") }, { Name := some (goBytes "some-other-cluster") }]
    [] { Name := some (goBytes "test-cluster") } rfl rfl

/-- C7: when the list call returns an error `err` (whatever response comes with it),
`ClusterExists` returns `false` together with the error
`fmt.Errorf("list SKCF clusters: %w", err)`, whose `Unwrap` is `err`; it does not panic and
does not return `true`. -/
theorem ClusterExists_list_error (apiClient : SKCFClient) (projectId clusterName : GoString)
    (resp : Option ListClustersResponse) (err : GoError)
    (h : apiClient.ListClustersExecute projectId = (resp, some err)) :
    ClusterExists apiClient projectId clusterName
        = .ret (false, some (.wrap (goBytes "list SKCF clusters") err)) ∧
      (GoError.wrap (goBytes "list SKCF clusters") err).Unwrap = some err ∧
      ∀ e, ClusterExists apiClient projectId clusterName ≠ .ret (true, e) := by
  have hce : ClusterExists apiClient projectId clusterName
      = .ret (false, some (.wrap (goBytes "list SKCF clusters") err)) := by
    simp [ClusterExists, h]
  refine ⟨hce, rfl, ?_⟩
  intro e he
  rw [hce] at he
  cases he

/-- C7 on the test's failing client, which returns a nil response and an error. -/
theorem ClusterExists_list_error_witness :
    ClusterExists
        { ListClustersExecute := fun _ => (none, some (.msg (goBytes "could not list clusters"))) }
        (goBytes "project") (goBytes "test-cluster")
      = .ret (false, some (.wrap (goBytes "list SKCF clusters")
          (.msg (goBytes "could not list clusters")))) :=
  (ClusterExists_list_error
    { ListClustersExecute := fun _ => (none, some (.msg (goBytes "could not list clusters"))) }
    (goBytes "project") (goBytes "test-cluster") none (.msg (goBytes "could not list clusters"))
    rfl).1

/-! ## Claims about `WriteConfigFile` -/

theorem memOS_lawful : memOS.Lawful where
  read_after_write := by
    intro name data perm st st' h
    simp only [memOS] at h ⊢
    split at h
    · cases h
    · split at h
      · cases h
      · split at h
        · cases h
        · cases h
          simp [List.lookup]
  isDir_after_mkdirAll := by
    intro path perm st st' h
    simp only [memOS] at h ⊢
    split at h
    · cases h
    · cases h
      simp
  isDir_after_write := by
    intro name data perm st st' dir h hdir
    simp only [memOS] at h hdir ⊢
    split at h
    · cases h
    · split at h
      · cases h
      · split at h
        · cases h
        · cases h
          exact hdir

/-- The table of `TestWriteConfigFile` on the in-memory file system, from the empty state:
the row `base` succeeds and leaves the data in the file, and the rows with an empty
location, a location that is only a directory and an empty kubeconfig return an error. -/
theorem WriteConfigFile_test_vectors :
    (WriteConfigFile memOS (goBytes "test_data/base/config") (goBytes "kubeconfig")
        { dirs := [], files := [] }).2.1 = none ∧
    memOS.ReadFile
        (WriteConfigFile memOS (goBytes "test_data/base/config") (goBytes "kubeconfig")
          { dirs := [], files := [] }).2.2
        (goBytes "test_data/base/config") = some (goBytes "kubeconfig") ∧
    (WriteConfigFile memOS (goBytes "") (goBytes "kubeconfig")
        { dirs := [], files := [] }).2.1 ≠ none ∧
    (WriteConfigFile memOS (goBytes "test_data/only_dir/") (goBytes "kubeconfig")
        { dirs := [], files := [] }).2.1 ≠ none ∧
    (WriteConfigFile memOS (goBytes "test_data/empty/config") (goBytes "")
        { dirs := [], files := [] }).2.1 ≠ none := by
  decide

/-- C10: for every path, `WriteConfigFile` with empty data returns an error, calls neither
`MkdirAll` nor `WriteFile` and leaves the file system as it was; and with non-empty data, on
an operating system that behaves as package `os` documents, a run that returns `nil` has
called `MkdirAll` on the directory of the path and then `WriteFile` on the path with the
data, after which reading the path gives exactly the data and its directory exists. -/
theorem WriteConfigFile_empty_and_written {σ : Type} (os : OS σ) (configPath : GoString)
    (st : σ) :
    WriteConfigFile os configPath (goBytes "") st
        = ([], some (.msg (goBytes "no data to write")), st) ∧
    (os.Lawful → ∀ data tr st', data ≠ goBytes "" →
      WriteConfigFile os configPath data st = (tr, none, st') →
        tr = [.mkdirAll (os.Dir configPath) 0o700, .writeFile configPath data 0o600] ∧
        os.ReadFile st' configPath = some data ∧
        os.IsDir st' (os.Dir configPath) = true) := by
  constructor
  · simp [WriteConfigFile]
  · intro hlaw data tr st' hdata h
    unfold WriteConfigFile at h
    rw [if_neg hdata] at h
    simp only at h
    cases hmk : os.MkdirAll (os.Dir configPath) 0o700 st with
    | mk e1 st1 =>
      rw [hmk] at h
      cases e1 with
      | some err => simp at h
      | none =>
        simp only at h
        cases hwr : os.WriteFile configPath data 0o600 st1 with
        | mk e2 st2 =>
          rw [hwr] at h
          cases e2 with
          | some err => simp at h
          | none =>
            simp only [Prod.mk.injEq, true_and] at h
            obtain ⟨htr, hst⟩ := h
            subst hst
            exact ⟨htr.symm, hlaw.read_after_write _ _ _ _ _ hwr,
              hlaw.isDir_after_write _ _ _ _ _ _ hwr
                (hlaw.isDir_after_mkdirAll _ _ _ _ hmk)⟩

/-- C10 on the in-memory file system, from the empty state: writing `kubeconfig` to
`test_data/base/config` creates `test_data/base` and leaves the data in the file. -/
theorem WriteConfigFile_empty_and_written_witness :
    memOS.ReadFile
        (WriteConfigFile memOS (goBytes "test_data/base/config") (goBytes "kubeconfig")
          { dirs := [], files := [] }).2.2
        (goBytes "test_data/base/config") = some (goBytes "kubeconfig") ∧
      memOS.IsDir
        (WriteConfigFile memOS (goBytes "test_data/base/config") (goBytes "kubeconfig")
          { dirs := [], files := [] }).2.2
        (goBytes "test_data/base") = true :=
  have h := (WriteConfigFile_empty_and_written memOS (goBytes "test_data/base/config")
    { dirs := [], files := [] }).2 memOS_lawful (goBytes "kubeconfig") _ _ (by decide) rfl
  ⟨h.2.1, h.2.2⟩

/-! ## Traces of `skcf cluster create` -/

theorem mem_after {β : Type} (pre : List Event) (x : List Event × β) (e : Event) :
    e ∈ (after pre x).1 ↔ e ∈ pre ∨ e ∈ x.1 := by
  simp [after]

theorem after_fst {β : Type} (pre : List Event) (x : List Event × β) :
    (after pre x).1 = pre ++ x.1 := rfl

theorem after_snd {β : Type} (pre : List Event) (x : List Event × β) :
    (after pre x).2 = x.2 := rfl

/-- A list that splits around one marked element, with no marked element on either side,
splits around a marked element in that way only. -/
theorem split_unique {α : Type} (p : α → Bool) :
    ∀ (a : List α) {b pre post : List α} {m e : α}, (∀ x ∈ a, p x = false) →
      (∀ x ∈ b, p x = false) → p e = true → a ++ m :: b = pre ++ e :: post →
        pre = a ∧ e = m ∧ post = b := by
  intro a
  induction a with
  | nil =>
    intro b pre post m e _ hb he h
    cases pre with
    | nil =>
      simp only [List.nil_append, List.cons.injEq] at h
      exact ⟨rfl, h.1.symm, h.2.symm⟩
    | cons y pre' =>
      simp only [List.nil_append, List.cons_append, List.cons.injEq] at h
      have : e ∈ b := by rw [h.2]; simp
      rw [hb e this] at he
      cases he
  | cons x a' ih =>
    intro b pre post m e ha hb he h
    cases pre with
    | nil =>
      simp only [List.cons_append, List.nil_append, List.cons.injEq] at h
      have := ha x (List.mem_cons_self _ _)
      rw [h.1, he] at this
      cases this
    | cons y pre' =>
      simp only [List.cons_append, List.cons.injEq] at h
      obtain ⟨h1, h2, h3⟩ :=
        ih (fun z hz => ha z (List.mem_cons_of_mem _ hz)) hb he h.2
      exact ⟨by rw [h.1, h1], h2, h3⟩

theorem buildModel_events (env : CreateEnv) (clusterName : GoString)
    (payload : Option CreateOrUpdateClusterPayload) :
    ∀ e ∈ (buildModel env clusterName payload).1, ∃ t, e = .debug t := by
  intro e he
  unfold buildModel at he
  simp only at he
  split at he
  · split at he <;> exact ⟨_, List.mem_singleton.1 he⟩
  · exact absurd he (List.not_mem_nil e)

theorem buildModel_model (env : CreateEnv) (clusterName : GoString)
    (payload : Option CreateOrUpdateClusterPayload) (model : inputModel)
    (h : (buildModel env clusterName payload).2 = .ret (.ok model)) :
    model.toGlobalFlagModel = env.globalFlags := by
  unfold buildModel at h
  simp only at h
  split at h
  · split at h <;> (cases h; rfl)
  · cases h; rfl

theorem parseInput_events (env : CreateEnv) :
    ∀ e ∈ (parseInput env).1, ∃ t, e = .debug t := by
  intro e he
  unfold parseInput at he
  split at he
  · exact absurd he (List.not_mem_nil e)
  · split at he
    · exact absurd he (List.not_mem_nil e)
    · split at he
      · exact buildModel_events _ _ _ e he
      · split at he
        · exact absurd he (List.not_mem_nil e)
        · exact buildModel_events _ _ _ e he

theorem parseInput_model (env : CreateEnv) (model : inputModel)
    (h : (parseInput env).2 = .ret (.ok model)) : model.toGlobalFlagModel = env.globalFlags := by
  unfold parseInput at h
  split at h
  · cases h
  · split at h
    · cases h
    · split at h
      · exact buildModel_model _ _ _ _ h
      · split at h
        · cases h
        · exact buildModel_model _ _ _ _ h

theorem outputResult_events (env : CreateEnv) (model : inputModel) (label : GoString)
    (resp : Cluster) : ∀ e ∈ (outputResult env model label resp).1, ∃ t, e = .output t := by
  intro e he
  unfold outputResult at he
  split at he
  · split at he <;> simp at he
    exact ⟨_, he⟩
  · split at he
    · split at he <;> simp at he
      exact ⟨_, he⟩
    · simp only at he
      split at he <;> simp at he
      exact ⟨_, he⟩

theorem waitAndOutput_async (env : CreateEnv) (model : inputModel) (label : GoString)
    (resp : Cluster) (name : GoString) (h : model.Async = true) :
    waitAndOutput env model label resp name = outputResult env model label resp := by
  simp [waitAndOutput, h]

theorem waitAndOutput_sync (env : CreateEnv) (model : inputModel) (label : GoString)
    (resp : Cluster) (name : GoString) (h : model.Async = false) :
    ∃ post, (waitAndOutput env model label resp name).1
        = .spinnerStart (goBytes "Creating cluster") :: .waitCluster model.ProjectId name :: post ∧
      ∀ e ∈ post, e.isWait = false ∧ e.isMutating = false ∧ e.isPrompt = false := by
  unfold waitAndOutput
  simp only [h, Bool.not_false, if_true]
  split
  · exact ⟨[], rfl, by simp⟩
  · refine ⟨.spinnerStop :: (outputResult env model label resp).1, rfl, ?_⟩
    intro e he
    rcases List.mem_cons.1 he with he | he
    · subst he; exact ⟨rfl, rfl, rfl⟩
    · obtain ⟨t, rfl⟩ := outputResult_events env model label resp e he
      exact ⟨rfl, rfl, rfl⟩

theorem waitAndOutput_events (env : CreateEnv) (model : inputModel) (label : GoString)
    (resp : Cluster) (name : GoString) :
    ∀ e ∈ (waitAndOutput env model label resp name).1,
      e.isMutating = false ∧ e.isPrompt = false := by
  intro e he
  cases h : model.Async with
  | true =>
    rw [waitAndOutput_async env model label resp name h] at he
    obtain ⟨t, rfl⟩ := outputResult_events env model label resp e he
    exact ⟨rfl, rfl⟩
  | false =>
    obtain ⟨post, hpost, hall⟩ := waitAndOutput_sync env model label resp name h
    rw [hpost] at he
    rcases List.mem_cons.1 he with he | he
    · subst he; exact ⟨rfl, rfl⟩
    · rcases List.mem_cons.1 he with he | he
      · subst he; exact ⟨rfl, rfl⟩
      · exact ⟨(hall e he).2.1, (hall e he).2.2⟩

/-- The run of `submitCreate` starts with the create request for the model's project and
cluster name, submits no other request and prompts no more; and when the request succeeds
with a named cluster the rest of the run is `waitAndOutput`. -/
theorem submitCreate_shape (env : CreateEnv) (model : inputModel) (label : GoString) :
    ∃ pl rest, (submitCreate env model label).1
        = .createCluster model.ProjectId model.ClusterName pl :: rest ∧
      (∀ x ∈ rest, x.isMutating = false ∧ x.isPrompt = false) ∧
      (∀ resp name, env.createExecute model.ProjectId model.ClusterName pl = (some resp, none) →
        resp.Name = some name →
          ∃ model' : inputModel, model'.toGlobalFlagModel = model.toGlobalFlagModel ∧
            rest = (waitAndOutput env model' label resp name).1 ∧
            (submitCreate env model label).2 = (waitAndOutput env model' label resp name).2) := by
  unfold submitCreate
  simp only [after]
  refine ⟨_, _, rfl, ?_, ?_⟩
  · intro x hx
    split at hx
    · exact absurd hx (List.not_mem_nil x)
    · exact absurd hx (List.not_mem_nil x)
    · split at hx
      · exact absurd hx (List.not_mem_nil x)
      · exact waitAndOutput_events _ _ _ _ _ x hx
  · intro resp name hresp hname
    rw [hresp]
    simp only [hname]
    exact ⟨_, rfl, rfl, rfl⟩

/-- The run of `checkExists` is the list call alone, or the list call followed by
`submitCreate`. -/
theorem checkExists_shape (env : CreateEnv) (model : inputModel) (label : GoString) :
    (checkExists env model label).1 = [.listClusters model.ProjectId] ∨
      checkExists env model label
        = after [.listClusters model.ProjectId] (submitCreate env model label) := by
  unfold checkExists
  split
  · exact Or.inl rfl
  · exact Or.inl rfl
  · exact Or.inl rfl
  · exact Or.inr rfl

/-- The run of `createRunE` stops during the parsing of the input or the configuration of
the client, having written to the debug log at most, or it continues with `confirmCreate` on
a model that carries the global flags. -/
theorem createRunE_shape (env : CreateEnv) :
    (∀ e ∈ (createRunE env).1, ∃ t, e = .debug t) ∨
      ∃ dbg model label, (∀ e ∈ dbg, ∃ t, e = .debug t) ∧
        model.toGlobalFlagModel = env.globalFlags ∧
        createRunE env = after dbg (confirmCreate env model label) := by
  have hev := parseInput_events env
  have hmod := parseInput_model env
  unfold createRunE
  cases hp : parseInput env with
  | mk tr out =>
    rw [hp] at hev hmod
    cases out with
    | panic => exact Or.inl hev
    | ret r =>
      cases r with
      | error err => exact Or.inl hev
      | ok model =>
        simp only
        cases env.configureClient with
        | some err => exact Or.inl hev
        | none =>
          simp only
          cases env.getProjectName with
          | error err =>
            refine Or.inr ⟨tr ++ [.debug (goBytes "get project name: %v")], model,
              model.ProjectId, ?_, hmod model rfl, rfl⟩
            intro e he
            rcases List.mem_append.1 he with he | he
            · exact hev e he
            · exact ⟨_, List.mem_singleton.1 he⟩
          | ok label => exact Or.inr ⟨tr, model, label, hev, hmod model rfl, rfl⟩

theorem after_after {β : Type} (a b : List Event) (x : List Event × β) :
    after a (after b x) = after (a ++ b) x := by
  simp [after, List.append_assoc]

theorem forall_mem_debug_append (P : Event → Prop) (hP : ∀ t, P (.debug t))
    {dbg l : List Event} (hdbg : ∀ e ∈ dbg, ∃ t, e = .debug t) (hl : ∀ e ∈ l, P e) :
    ∀ e ∈ dbg ++ l, P e := by
  intro e he
  rcases List.mem_append.1 he with he | he
  · obtain ⟨t, rfl⟩ := hdbg e he
    exact hP t
  · exact hl e he

/-- The run of `confirmCreate`: with `AssumeYes` it is `checkExists`; without, it starts with
a prompt, and stops there with the prompt's error or continues with `checkExists`. -/
theorem confirmCreate_shape (env : CreateEnv) (model : inputModel) (label : GoString) :
    (model.AssumeYes = true → confirmCreate env model label = checkExists env model label) ∧
    (model.AssumeYes = false → ∃ p,
      (∃ err, env.promptForConfirmation p = some err ∧
        confirmCreate env model label = ([.prompt p], .ret (some err))) ∨
      (env.promptForConfirmation p = none ∧
        confirmCreate env model label = after [.prompt p] (checkExists env model label))) := by
  constructor
  · intro h
    simp [confirmCreate, h]
  · intro h
    unfold confirmCreate
    simp only [h, Bool.not_false, if_true]
    refine ⟨goBytes "Are you sure you want to create a cluster for project "
      ++ env.quote label ++ goBytes "?", ?_⟩
    cases hp : env.promptForConfirmation
        (goBytes "Are you sure you want to create a cluster for project "
          ++ env.quote label ++ goBytes "?") with
    | some err => exact Or.inl ⟨err, rfl, rfl⟩
    | none => exact Or.inr ⟨rfl, rfl⟩

/-- The run of `createRunE` up to the create request: a prefix `a` of events that are no
request, no wait and no output, without a prompt under `AssumeYes`; the run either is
that prefix, or continues with `submitCreate`, and then the prefix holds a prompt unless
`AssumeYes`. -/
theorem createRunE_reach (env : CreateEnv) :
    ∃ a, (∀ x ∈ a, x.isMutating = false ∧ x.isWait = false ∧ x.isOutput = false) ∧
      (env.globalFlags.AssumeYes = true → ∀ x ∈ a, x.isPrompt = false) ∧
      ((createRunE env).1 = a ∨
        ∃ model label, model.toGlobalFlagModel = env.globalFlags ∧
          createRunE env = after a (submitCreate env model label) ∧
          (env.globalFlags.AssumeYes = false → ∃ x ∈ a, x.isPrompt = true)) := by
  let Q : Event → Prop := fun x => x.isMutating = false ∧ x.isWait = false ∧ x.isOutput = false
  let N : Event → Prop := fun x => x.isPrompt = false
  have hq : ∀ t, Q (Event.debug t) := fun _ => ⟨rfl, rfl, rfl⟩
  have hnp : ∀ t, N (Event.debug t) := fun _ => rfl
  rcases createRunE_shape env with h | ⟨dbg, model, label, hdbg, hmodel, hrun⟩
  · refine ⟨(createRunE env).1, ?_, ?_, Or.inl rfl⟩
    · intro x hx
      obtain ⟨t, rfl⟩ := h x hx
      exact hq t
    · intro _ x hx
      obtain ⟨t, rfl⟩ := h x hx
      rfl
  · have hyes : model.AssumeYes = env.globalFlags.AssumeYes := by rw [← hmodel]
    obtain ⟨hc1, hc2⟩ := confirmCreate_shape env model label
    rcases Bool.eq_false_or_eq_true env.globalFlags.AssumeYes with hy | hy
    · rw [hc1 (hyes.trans hy)] at hrun
      refine ⟨dbg ++ [.listClusters model.ProjectId], ?_, ?_, ?_⟩
      · exact forall_mem_debug_append Q hq hdbg
          (fun e he => by rw [List.mem_singleton.1 he]; exact ⟨rfl, rfl, rfl⟩)
      · intro _
        exact forall_mem_debug_append N hnp hdbg
          (fun e he => by rw [List.mem_singleton.1 he]; rfl)
      · rcases checkExists_shape env model label with hs | hs
        · left
          rw [hrun, after_fst, hs]
        · right
          refine ⟨model, label, hmodel, ?_, ?_⟩
          · rw [hrun, hs, after_after]
          · intro h
            rw [hy] at h
            cases h
    · obtain ⟨p, ⟨err, -, hstop⟩ | ⟨-, hgo⟩⟩ := hc2 (hyes.trans hy)
      · refine ⟨dbg ++ [.prompt p], ?_, ?_, Or.inl ?_⟩
        · exact forall_mem_debug_append Q hq hdbg
            (fun e he => by rw [List.mem_singleton.1 he]; exact ⟨rfl, rfl, rfl⟩)
        · intro h
          rw [hy] at h
          cases h
        · rw [hrun, hstop]
          rfl
      · rw [hgo, after_after] at hrun
        refine ⟨(dbg ++ [.prompt p]) ++ [.listClusters model.ProjectId], ?_, ?_, ?_⟩
        · intro x hx
          rcases List.mem_append.1 hx with hx | hx
          · exact forall_mem_debug_append Q hq hdbg
              (fun e he => by rw [List.mem_singleton.1 he]; exact ⟨rfl, rfl, rfl⟩) x hx
          · rw [List.mem_singleton.1 hx]
            exact ⟨rfl, rfl, rfl⟩
        · intro h
          rw [hy] at h
          cases h
        · rcases checkExists_shape env model label with hs | hs
          · left
            rw [hrun, after_fst, hs]
          · right
            refine ⟨model, label, hmodel, ?_, ?_⟩
            · rw [hrun, hs, after_after]
            · intro _
              exact ⟨.prompt p, by simp, rfl⟩

/-- After a create request that succeeded with a named cluster, the run of `createRunE` is
a prefix without wait and output, up to and including the request, followed by
`waitAndOutput` on a model that carries the global flags. -/
theorem createRunE_after_create (env : CreateEnv) (projectId clusterName : GoString)
    (payload : CreateOrUpdateClusterPayload) (resp : Cluster) (name : GoString)
    (hsub : Event.createCluster projectId clusterName payload ∈ (createRunE env).1)
    (hresp : env.createExecute projectId clusterName payload = (some resp, none))
    (hname : resp.Name = some name) :
    ∃ pre model label, (∀ x ∈ pre, x.isWait = false ∧ x.isOutput = false) ∧
      model.toGlobalFlagModel = env.globalFlags ∧
      createRunE env = after pre (waitAndOutput env model label resp name) := by
  obtain ⟨a, ha, -, hcase⟩ := createRunE_reach env
  rcases hcase with hstop | ⟨model, label, hmodel, hrun, -⟩
  · rw [hstop] at hsub
    have := (ha _ hsub).1
    cases this
  · obtain ⟨pl, rest, htr, hrest, hnext⟩ := submitCreate_shape env model label
    rw [hrun, after_fst, htr] at hsub
    have hev : Event.createCluster projectId clusterName payload
        = Event.createCluster model.ProjectId model.ClusterName pl := by
      rcases List.mem_append.1 hsub with h | h
      · have := (ha _ h).1
        cases this
      · rcases List.mem_cons.1 h with h | h
        · exact h
        · have := (hrest _ h).1
          cases this
    injection hev with h1 h2 h3
    subst h1 h2 h3
    obtain ⟨model', hm', hrest_eq, hout⟩ := hnext resp name hresp hname
    refine ⟨a ++ [.createCluster model.ProjectId model.ClusterName payload], model', label,
      ?_, hm'.trans hmodel, ?_⟩
    · intro x hx
      rcases List.mem_append.1 hx with hx | hx
      · exact (ha x hx).2
      · rw [List.mem_singleton.1 hx]
        exact ⟨rfl, rfl⟩
    · rw [hrun]
      apply Prod.ext
      · rw [after_fst, after_fst, htr, hrest_eq]
        simp
      · rw [after_snd, after_snd, hout]

/-- C8: in a run of the cluster create command in which the create request was submitted
and succeeded with a cluster named `name`: if `Async` is set, the wait handler is never
called and the run continues directly with `outputResult`; if `Async` is not set, the wait
handler is called exactly once, with the project id and `name`, and no output is written
before that call. -/
theorem createRunE_wait_iff_not_async (env : CreateEnv) (projectId clusterName : GoString)
    (payload : CreateOrUpdateClusterPayload) (resp : Cluster) (name : GoString)
    (hsub : Event.createCluster projectId clusterName payload ∈ (createRunE env).1)
    (hresp : env.createExecute projectId clusterName payload = (some resp, none))
    (hname : resp.Name = some name) :
    (env.globalFlags.Async = true →
      (∀ e ∈ (createRunE env).1, e.isWait = false) ∧
      ∃ pre model label, (∀ x ∈ pre, x.isOutput = false) ∧
        model.toGlobalFlagModel = env.globalFlags ∧
        createRunE env = after pre (outputResult env model label resp)) ∧
    (env.globalFlags.Async = false →
      ∃ pre post, (createRunE env).1
          = pre ++ Event.waitCluster env.globalFlags.ProjectId name :: post ∧
        (∀ e ∈ pre, e.isWait = false ∧ e.isOutput = false) ∧
        (∀ e ∈ post, e.isWait = false)) := by
  obtain ⟨pre, model, label, hpre, hmodel, hrun⟩ :=
    createRunE_after_create env projectId clusterName payload resp name hsub hresp hname
  have hasync : model.Async = env.globalFlags.Async := by rw [← hmodel]
  have hpid : model.ProjectId = env.globalFlags.ProjectId := by rw [← hmodel]
  constructor
  · intro h
    rw [waitAndOutput_async env model label resp name (hasync.trans h)] at hrun
    refine ⟨?_, pre, model, label, fun x hx => (hpre x hx).2, hmodel, hrun⟩
    intro e he
    rw [hrun] at he
    rcases (mem_after _ _ _).1 he with he | he
    · exact (hpre e he).1
    · obtain ⟨t, rfl⟩ := outputResult_events env model label resp e he
      rfl
  · intro h
    obtain ⟨post, hpost, hall⟩ := waitAndOutput_sync env model label resp name (hasync.trans h)
    refine ⟨pre ++ [.spinnerStart (goBytes "Creating cluster")], post, ?_, ?_, ?_⟩
    · rw [hrun, after_fst, hpost, hpid]
      simp
    · intro e he
      rcases List.mem_append.1 he with he | he
      · exact hpre e he
      · rw [List.mem_singleton.1 he]
        exact ⟨rfl, rfl⟩
    · intro e he
      exact (hall e he).1

/-! ## The confirmation prompt and the mutating request -/

/-- The three facts on the prompt, derived once for both commands from the shape of a run:
a prefix `a` without prompt and request, then (unless `assumeYes`) one prompt that ends the
run with its error or lets it go on, then `next`, which holds at most one request and no
prompt. -/
theorem prompt_discipline (assumeYes : Bool) (ask : GoString → Option GoError)
    (run next : List Event × Run (Option GoError)) (a : List Event)
    (ha : ∀ x ∈ a, x.isPrompt = false ∧ x.isMutating = false)
    (hnext : (∀ x ∈ next.1, x.isPrompt = false ∧ x.isMutating = false) ∨
      ∃ q m rest, next.1 = q ++ m :: rest ∧ m.isMutating = true ∧ m.isPrompt = false ∧
        (∀ x ∈ q, x.isPrompt = false ∧ x.isMutating = false) ∧
        (∀ x ∈ rest, x.isPrompt = false ∧ x.isMutating = false))
    (hrun : run.1 = a ∨ (assumeYes = true ∧ run = after a next) ∨
      (assumeYes = false ∧ ∃ p,
        (∃ err, ask p = some err ∧ run = after a ([.prompt p], .ret (some err))) ∨
        (ask p = none ∧ run = after a (after [.prompt p] next)))) :
    (assumeYes = true → ∀ e ∈ run.1, e.isPrompt = false) ∧
    (assumeYes = false → ∀ text err, Event.prompt text ∈ run.1 → ask text = some err →
      run.2 = .ret (some err) ∧ ∀ e ∈ run.1, e.isMutating = false) ∧
    (∀ pre e post, run.1 = pre ++ e :: post → e.isMutating = true →
      (∀ x ∈ post, x.isPrompt = false) ∧
      (assumeYes = false → ∃ x ∈ pre, x.isPrompt = true)) := by
  have hnextP : ∀ x ∈ next.1, x.isPrompt = false := by
    intro x hx
    rcases hnext with h | ⟨q, m, rest, hn, -, hmp, hq, hrest⟩
    · exact (h x hx).1
    · rw [hn] at hx
      rcases List.mem_append.1 hx with hx | hx
      · exact (hq x hx).1
      · rcases List.mem_cons.1 hx with hx | hx
        · rw [hx]; exact hmp
        · exact (hrest x hx).1
  have hnotin : ∀ text, Event.prompt text ∉ a := by
    intro text h
    have := (ha _ h).1
    cases this
  refine ⟨?_, ?_, ?_⟩
  · intro hy e he
    rcases hrun with h | ⟨-, h⟩ | ⟨hn, -⟩
    · rw [h] at he
      exact (ha e he).1
    · rw [h] at he
      rcases (mem_after _ _ _).1 he with he | he
      · exact (ha e he).1
      · exact hnextP e he
    · rw [hy] at hn
      cases hn
  · intro hy text err hmem hask
    rcases hrun with h | ⟨hn, -⟩ | ⟨-, p, ⟨err', hp, h⟩ | ⟨hp, h⟩⟩
    · rw [h] at hmem
      exact absurd hmem (hnotin text)
    · rw [hy] at hn
      cases hn
    · rw [h] at hmem ⊢
      rcases (mem_after _ _ _).1 hmem with hmem | hmem
      · exact absurd hmem (hnotin text)
      · have htext : text = p := by
          have := List.mem_singleton.1 hmem
          injection this
        subst htext
        rw [hp] at hask
        injection hask with hask
        subst hask
        refine ⟨rfl, ?_⟩
        intro e he
        rcases (mem_after _ _ _).1 he with he | he
        · exact (ha e he).2
        · rw [List.mem_singleton.1 he]
          rfl
    · rw [h] at hmem
      rcases (mem_after _ _ _).1 hmem with hmem | hmem
      · exact absurd hmem (hnotin text)
      · rcases (mem_after _ _ _).1 hmem with hmem | hmem
        · have htext : text = p := by
            have := List.mem_singleton.1 hmem
            injection this
          subst htext
          rw [hp] at hask
          cases hask
        · have := hnextP _ hmem
          cases this
  · intro pre e post hsplit hmut
    have hnomut : ∀ l : List Event, (∀ x ∈ l, x.isMutating = false) → run.1 = l → False := by
      intro l hl h
      have : e ∈ l := by rw [← h, hsplit]; simp
      rw [hl e this] at hmut
      cases hmut
    rcases hnext with hquiet | ⟨q, m, rest, hn, hm, -, hq, hrest⟩
    · exfalso
      rcases hrun with h | ⟨-, h⟩ | ⟨-, p, ⟨err', -, h⟩ | ⟨-, h⟩⟩
      · exact hnomut a (fun x hx => (ha x hx).2) h
      · refine hnomut (a ++ next.1) ?_ (by rw [h]; rfl)
        intro x hx
        rcases List.mem_append.1 hx with hx | hx
        · exact (ha x hx).2
        · exact (hquiet x hx).2
      · refine hnomut (a ++ [.prompt p]) ?_ (by rw [h]; rfl)
        intro x hx
        rcases List.mem_append.1 hx with hx | hx
        · exact (ha x hx).2
        · rw [List.mem_singleton.1 hx]; rfl
      · refine hnomut (a ++ ([.prompt p] ++ next.1)) ?_ (by rw [h]; rfl)
        intro x hx
        rcases List.mem_append.1 hx with hx | hx
        · exact (ha x hx).2
        · rcases List.mem_append.1 hx with hx | hx
          · rw [List.mem_singleton.1 hx]; rfl
          · exact (hquiet x hx).2
    · rcases hrun with h | ⟨hy, h⟩ | ⟨hy, p, ⟨err', -, h⟩ | ⟨-, h⟩⟩
      · exact absurd h (fun h => hnomut a (fun x hx => (ha x hx).2) h)
      · have htr : (a ++ q) ++ m :: rest = pre ++ e :: post := by
          rw [← hsplit, h, after_fst, hn, List.append_assoc]
        obtain ⟨-, -, hpost⟩ := split_unique Event.isMutating (a ++ q)
          (fun x hx => by
            rcases List.mem_append.1 hx with hx | hx
            · exact (ha x hx).2
            · exact (hq x hx).2)
          (fun x hx => (hrest x hx).2) hmut htr
        subst hpost
        refine ⟨fun x hx => (hrest x hx).1, ?_⟩
        intro hn'
        rw [hy] at hn'
        cases hn'
      · exfalso
        refine hnomut (a ++ [.prompt p]) ?_ (by rw [h]; rfl)
        intro x hx
        rcases List.mem_append.1 hx with hx | hx
        · exact (ha x hx).2
        · rw [List.mem_singleton.1 hx]; rfl
      · have htr : (a ++ .prompt p :: q) ++ m :: rest = pre ++ e :: post := by
          rw [← hsplit, h, after_fst, after_fst, hn]
          simp
        obtain ⟨hpre, -, hpost⟩ := split_unique Event.isMutating (a ++ .prompt p :: q)
          (fun x hx => by
            rcases List.mem_append.1 hx with hx | hx
            · exact (ha x hx).2
            · rcases List.mem_cons.1 hx with hx | hx
              · rw [hx]; rfl
              · exact (hq x hx).2)
          (fun x hx => (hrest x hx).2) hmut htr
        subst hpost hpre
        exact ⟨fun x hx => (hrest x hx).1, fun _ => ⟨.prompt p, by simp, rfl⟩⟩

theorem createRunE_prompt_discipline (env : CreateEnv) :
    (env.globalFlags.AssumeYes = true → ∀ e ∈ (createRunE env).1, e.isPrompt = false) ∧
    (env.globalFlags.AssumeYes = false → ∀ text err, Event.prompt text ∈ (createRunE env).1 →
      env.promptForConfirmation text = some err →
        (createRunE env).2 = .ret (some err) ∧ ∀ e ∈ (createRunE env).1, e.isMutating = false) ∧
    (∀ pre e post, (createRunE env).1 = pre ++ e :: post → e.isMutating = true →
      (∀ x ∈ post, x.isPrompt = false) ∧
      (env.globalFlags.AssumeYes = false → ∃ x ∈ pre, x.isPrompt = true)) := by
  rcases createRunE_shape env with h | ⟨dbg, model, label, hdbg, hmodel, hrun⟩
  · refine prompt_discipline _ _ _ ([], .panic) (createRunE env).1 ?_ (Or.inl ?_) (Or.inl rfl)
    · intro x hx
      obtain ⟨t, rfl⟩ := h x hx
      exact ⟨rfl, rfl⟩
    · intro x hx
      exact absurd hx (List.not_mem_nil x)
  · have hyes : model.AssumeYes = env.globalFlags.AssumeYes := by rw [← hmodel]
    obtain ⟨hc1, hc2⟩ := confirmCreate_shape env model label
    refine prompt_discipline _ _ _ (checkExists env model label) dbg ?_ ?_ ?_
    · intro x hx
      obtain ⟨t, rfl⟩ := hdbg x hx
      exact ⟨rfl, rfl⟩
    · rcases checkExists_shape env model label with hs | hs
      · left
        intro x hx
        rw [hs] at hx
        rw [List.mem_singleton.1 hx]
        exact ⟨rfl, rfl⟩
      · right
        obtain ⟨pl, rest, htr, hrest, -⟩ := submitCreate_shape env model label
        refine ⟨[.listClusters model.ProjectId],
          .createCluster model.ProjectId model.ClusterName pl, rest, ?_, rfl, rfl, ?_, ?_⟩
        · rw [hs, after_fst, htr]
        · intro x hx
          rw [List.mem_singleton.1 hx]
          exact ⟨rfl, rfl⟩
        · intro x hx
          exact ⟨(hrest x hx).2, (hrest x hx).1⟩
    · right
      rcases Bool.eq_false_or_eq_true env.globalFlags.AssumeYes with hy | hy
      · left
        refine ⟨hy, ?_⟩
        rw [hrun, hc1 (hyes.trans hy)]
      · right
        refine ⟨hy, ?_⟩
        obtain ⟨p, ⟨err, hp, hstop⟩ | ⟨hp, hgo⟩⟩ := hc2 (hyes.trans hy)
        · exact ⟨p, Or.inl ⟨err, hp, by rw [hrun, hstop]⟩⟩
        · exact ⟨p, Or.inr ⟨hp, by rw [hrun, hgo]⟩⟩

/-! ## Traces of `argus credentials create` -/

theorem outputCredentials_events (env : CredentialsEnv) (label : GoString)
    (resp : Option CreateCredentialsResponse) :
    ∀ e ∈ (outputCredentials env label resp).1, ∃ t, e = .output t := by
  intro e he
  unfold outputCredentials at he
  rcases (mem_after _ _ _).1 he with he | he
  · exact ⟨_, List.mem_singleton.1 he⟩
  · split at he
    · exact absurd he (List.not_mem_nil e)
    · split at he
      · exact absurd he (List.not_mem_nil e)
      · split at he
        · exact absurd he (List.not_mem_nil e)
        · rcases (mem_after _ _ _).1 he with he | he
          · split at he
            · exact ⟨_, List.mem_singleton.1 he⟩
            · exact absurd he (List.not_mem_nil e)
          · split at he
            · exact absurd he (List.not_mem_nil e)
            · exact ⟨_, List.mem_singleton.1 he⟩

/-- The run of `submitCredentials` is empty (the stale error is returned), or starts with
the create request and then holds neither a request nor a prompt. -/
theorem submitCredentials_shape (env : CredentialsEnv) (label : GoString)
    (err : Option GoError) :
    (submitCredentials env label err).1 = [] ∨
      ∃ rest, (submitCredentials env label err).1
          = .createCredentials env.instanceId env.globalFlags.ProjectId :: rest ∧
        ∀ x ∈ rest, x.isPrompt = false ∧ x.isMutating = false := by
  unfold submitCredentials
  cases err with
  | some e => exact Or.inl rfl
  | none =>
    right
    refine ⟨_, rfl, ?_⟩
    intro x hx
    split at hx
    · exact absurd hx (List.not_mem_nil x)
    · obtain ⟨t, rfl⟩ := outputCredentials_events _ _ _ x hx
      exact ⟨rfl, rfl⟩

/-- The run of `confirmCredentials`: with `AssumeYes` it is `submitCredentials` with the
error it was entered with; without, it starts with a prompt, and stops there with the
prompt's error or continues with `submitCredentials` and no error. -/
theorem confirmCredentials_shape (env : CredentialsEnv) (label : GoString)
    (err : Option GoError) :
    (env.globalFlags.AssumeYes = true →
      confirmCredentials env label err = submitCredentials env label err) ∧
    (env.globalFlags.AssumeYes = false → ∃ p,
      (∃ e, env.promptForConfirmation p = some e ∧
        confirmCredentials env label err = ([.prompt p], .ret (some e))) ∨
      (env.promptForConfirmation p = none ∧
        confirmCredentials env label err
          = after [.prompt p] (submitCredentials env label none))) := by
  constructor
  · intro h
    simp [confirmCredentials, h]
  · intro h
    unfold confirmCredentials
    simp only [h, Bool.not_false, if_true]
    refine ⟨goBytes "Are you sure you want to create credentials for instance "
      ++ env.quote label ++ goBytes "?", ?_⟩
    cases hp : env.promptForConfirmation
        (goBytes "Are you sure you want to create credentials for instance "
          ++ env.quote label ++ goBytes "?") with
    | some e => exact Or.inl ⟨e, rfl, rfl⟩
    | none => exact Or.inr ⟨rfl, rfl⟩

/-- The run of `credentialsRunE` stops before any event, or continues with
`confirmCredentials` after the lookup of the instance name. -/
theorem credentialsRunE_shape (env : CredentialsEnv) :
    (credentialsRunE env).1 = [] ∨
      ∃ a label err, (∀ x ∈ a, x.isPrompt = false ∧ x.isMutating = false) ∧
        credentialsRunE env = after a (confirmCredentials env label err) := by
  unfold credentialsRunE
  split
  · exact Or.inl rfl
  · split
    · exact Or.inl rfl
    · right
      cases env.getInstanceName env.instanceId env.globalFlags.ProjectId with
      | error err =>
        refine ⟨[.getInstanceName env.instanceId env.globalFlags.ProjectId,
          .debug (goBytes "get instance name: %v")], env.instanceId, some err, ?_, ?_⟩
        · intro x hx
          rcases List.mem_cons.1 hx with hx | hx
          · rw [hx]; exact ⟨rfl, rfl⟩
          · rw [List.mem_singleton.1 hx]; exact ⟨rfl, rfl⟩
        · simp only [after_after]
          rfl
      | ok instanceLabel =>
        refine ⟨[.getInstanceName env.instanceId env.globalFlags.ProjectId], instanceLabel,
          none, ?_, rfl⟩
        intro x hx
        rw [List.mem_singleton.1 hx]
        exact ⟨rfl, rfl⟩

theorem credentialsRunE_prompt_discipline (env : CredentialsEnv) :
    (env.globalFlags.AssumeYes = true → ∀ e ∈ (credentialsRunE env).1, e.isPrompt = false) ∧
    (env.globalFlags.AssumeYes = false → ∀ text err,
      Event.prompt text ∈ (credentialsRunE env).1 → env.promptForConfirmation text = some err →
        (credentialsRunE env).2 = .ret (some err) ∧
        ∀ e ∈ (credentialsRunE env).1, e.isMutating = false) ∧
    (∀ pre e post, (credentialsRunE env).1 = pre ++ e :: post → e.isMutating = true →
      (∀ x ∈ post, x.isPrompt = false) ∧
      (env.globalFlags.AssumeYes = false → ∃ x ∈ pre, x.isPrompt = true)) := by
  have hsub : ∀ label err,
      (∀ x ∈ (submitCredentials env label err).1, x.isPrompt = false ∧ x.isMutating = false) ∨
      ∃ q m rest, (submitCredentials env label err).1 = q ++ m :: rest ∧ m.isMutating = true ∧
        m.isPrompt = false ∧ (∀ x ∈ q, x.isPrompt = false ∧ x.isMutating = false) ∧
        (∀ x ∈ rest, x.isPrompt = false ∧ x.isMutating = false) := by
    intro label err
    rcases submitCredentials_shape env label err with h | ⟨rest, h, hrest⟩
    · left
      intro x hx
      rw [h] at hx
      exact absurd hx (List.not_mem_nil x)
    · right
      exact ⟨[], _, rest, h, rfl, rfl, fun x hx => absurd hx (List.not_mem_nil x), hrest⟩
  rcases credentialsRunE_shape env with h | ⟨a, label, err, ha, hrun⟩
  · refine prompt_discipline _ _ _ ([], .panic) [] ?_ (Or.inl ?_) (Or.inl h)
    · intro x hx
      exact absurd hx (List.not_mem_nil x)
    · intro x hx
      exact absurd hx (List.not_mem_nil x)
  · obtain ⟨hc1, hc2⟩ := confirmCredentials_shape env label err
    rcases Bool.eq_false_or_eq_true env.globalFlags.AssumeYes with hy | hy
    · refine prompt_discipline _ _ _ (submitCredentials env label err) a ha (hsub label err)
        (Or.inr (Or.inl ⟨hy, ?_⟩))
      rw [hrun, hc1 hy]
    · refine prompt_discipline _ _ _ (submitCredentials env label none) a ha (hsub label none)
        (Or.inr (Or.inr ⟨hy, ?_⟩))
      obtain ⟨p, ⟨e, hp, hstop⟩ | ⟨hp, hgo⟩⟩ := hc2 hy
      · exact ⟨p, Or.inl ⟨e, hp, by rw [hrun, hstop]⟩⟩
      · exact ⟨p, Or.inr ⟨hp, by rw [hrun, hgo]⟩⟩

/-! ## Claims about the commands -/

/-- C8 on the example run: with `Async` set no wait handler call occurs, and with `Async`
unset the wait handler is called once, for project `p1` and cluster `my-cluster`, before
any output. -/
theorem createRunE_wait_iff_not_async_witness :
    (∀ e ∈ (createRunE (exampleCreateEnv true true none)).1, e.isWait = false) ∧
    ∃ pre post, (createRunE (exampleCreateEnv false true none)).1
        = pre ++ Event.waitCluster (goBytes "p1") (goBytes "my-cluster") :: post ∧
      (∀ e ∈ pre, e.isWait = false ∧ e.isOutput = false) ∧
      (∀ e ∈ post, e.isWait = false) :=
  ⟨((createRunE_wait_iff_not_async (exampleCreateEnv true true none) (goBytes "p1")
      (goBytes "my-cluster") { content := goBytes "" } { Name := some (goBytes "my-cluster") }
      (goBytes "my-cluster") (by decide) rfl rfl).1 rfl).1,
    (createRunE_wait_iff_not_async (exampleCreateEnv false true none) (goBytes "p1")
      (goBytes "my-cluster") { content := goBytes "" } { Name := some (goBytes "my-cluster") }
      (goBytes "my-cluster") (by decide) rfl rfl).2 rfl⟩

/-- C9: in the cluster create command and in the credentials create command alike: with
`AssumeYes` set no prompt is issued; with `AssumeYes` unset, if the prompt that was issued
returns an error, the command returns that error and no mutating request is executed; and
whenever a mutating request is executed, no prompt follows it and, with `AssumeYes` unset,
a prompt precedes it. -/
theorem prompt_precedes_mutating_request :
    (∀ env : CreateEnv,
      (env.globalFlags.AssumeYes = true → ∀ e ∈ (createRunE env).1, e.isPrompt = false) ∧
      (env.globalFlags.AssumeYes = false → ∀ text err,
        Event.prompt text ∈ (createRunE env).1 → env.promptForConfirmation text = some err →
          (createRunE env).2 = .ret (some err) ∧
          ∀ e ∈ (createRunE env).1, e.isMutating = false) ∧
      (∀ pre e post, (createRunE env).1 = pre ++ e :: post → e.isMutating = true →
        (∀ x ∈ post, x.isPrompt = false) ∧
        (env.globalFlags.AssumeYes = false → ∃ x ∈ pre, x.isPrompt = true))) ∧
    (∀ env : CredentialsEnv,
      (env.globalFlags.AssumeYes = true →
        ∀ e ∈ (credentialsRunE env).1, e.isPrompt = false) ∧
      (env.globalFlags.AssumeYes = false → ∀ text err,
        Event.prompt text ∈ (credentialsRunE env).1 →
          env.promptForConfirmation text = some err →
            (credentialsRunE env).2 = .ret (some err) ∧
            ∀ e ∈ (credentialsRunE env).1, e.isMutating = false) ∧
      (∀ pre e post, (credentialsRunE env).1 = pre ++ e :: post → e.isMutating = true →
        (∀ x ∈ post, x.isPrompt = false) ∧
        (env.globalFlags.AssumeYes = false → ∃ x ∈ pre, x.isPrompt = true))) :=
  ⟨createRunE_prompt_discipline, credentialsRunE_prompt_discipline⟩

/-- C9 on the example runs: a declined prompt ends both commands with the prompt's error
and without a request, and with `AssumeYes` no prompt is issued. -/
theorem prompt_precedes_mutating_request_witness :
    ((createRunE (exampleCreateEnv false false (some (.msg (goBytes "declined"))))).2
        = .ret (some (.msg (goBytes "declined"))) ∧
      ∀ e ∈ (createRunE (exampleCreateEnv false false (some (.msg (goBytes "declined"))))).1,
        e.isMutating = false) ∧
    ((credentialsRunE (exampleCredentialsEnv false (some (.msg (goBytes "declined"))))).2
        = .ret (some (.msg (goBytes "declined"))) ∧
      ∀ e ∈ (credentialsRunE (exampleCredentialsEnv false (some (.msg (goBytes "declined"))))).1,
        e.isMutating = false) ∧
    (∀ e ∈ (createRunE (exampleCreateEnv false true none)).1, e.isPrompt = false) ∧
    (∀ e ∈ (credentialsRunE (exampleCredentialsEnv true none)).1, e.isPrompt = false) :=
  ⟨(prompt_precedes_mutating_request.1
      (exampleCreateEnv false false (some (.msg (goBytes "declined"))))).2.1 rfl
      (goBytes "Are you sure you want to create a cluster for project \"my-project\"?")
      (.msg (goBytes "declined")) (by decide) rfl,
    (prompt_precedes_mutating_request.2
      (exampleCredentialsEnv false (some (.msg (goBytes "declined"))))).2.1 rfl
      (goBytes "Are you sure you want to create credentials for instance \"my-instance\"?")
      (.msg (goBytes "declined")) (by decide) rfl,
    (prompt_precedes_mutating_request.1 (exampleCreateEnv false true none)).1 rfl,
    (prompt_precedes_mutating_request.2 (exampleCredentialsEnv true none)).1 rfl⟩

/-! ## Test vectors and further facts -/

/-- The table of `TestConvertToSeconds`. -/
theorem ConvertToSeconds_test_vectors :
    ConvertToSeconds (goBytes "30s") = .ok (goBytes "30") ∧
    ConvertToSeconds (goBytes "30m") = .ok (goBytes "1800") ∧
    ConvertToSeconds (goBytes "30h") = .ok (goBytes "108000") ∧
    ConvertToSeconds (goBytes "30d") = .ok (goBytes "2592000") ∧
    ConvertToSeconds (goBytes "30M") = .ok (goBytes "77760000") ∧
    ConvertToSeconds (goBytes "0030M") = .ok (goBytes "77760000") ∧
    ConvertToSeconds (goBytes "30x") = .error (.invalidTimeUnit (goBytes "x")) ∧
    ConvertToSeconds (goBytes "3000abcdef")
      = .error (.invalidTimeValue (goBytes "3000abcde")) ∧
    ConvertToSeconds (goBytes "3000abcdef000")
      = .error (.invalidTimeValue (goBytes "3000abcdef00")) ∧
    ConvertToSeconds (goBytes "x") = .error (.invalidTime (goBytes "x")) ∧
    ConvertToSeconds (goBytes "") = .error (.invalidTime (goBytes "")) := by
  decide

/-- The example run of the cluster create command with `Async` and `AssumeYes` unset, in
full. -/
theorem createRunE_example_run :
    createRunE (exampleCreateEnv false false none) =
      ([.prompt (goBytes "Are you sure you want to create a cluster for project \"my-project\"?"),
        .listClusters (goBytes "p1"),
        .createCluster (goBytes "p1") (goBytes "my-cluster") { content := goBytes "" },
        .spinnerStart (goBytes "Creating cluster"),
        .waitCluster (goBytes "p1") (goBytes "my-cluster"),
        .spinnerStop,
        .output (goBytes
          "Created cluster for project \"my-project\". Cluster name: my-cluster\n")],
        .ret none) := by
  decide

/-- In the credentials command with `AssumeYes` set, an error of the lookup of the instance
name is still in the variable `err` when it is tested after `buildRequest`: the command
returns that error and does not execute the request. -/
theorem credentialsRunE_assumeYes_stale_error (env : CredentialsEnv) (err : GoError)
    (hproject : env.globalFlags.ProjectId ≠ goBytes "") (hclient : env.configureClient = none)
    (hname : env.getInstanceName env.instanceId env.globalFlags.ProjectId = .error err)
    (hyes : env.globalFlags.AssumeYes = true) :
    credentialsRunE env =
      ([.getInstanceName env.instanceId env.globalFlags.ProjectId,
        .debug (goBytes "get instance name: %v")], .ret (some err)) := by
  unfold credentialsRunE
  rw [if_neg hproject, hclient]
  simp only [hname]
  simp [confirmCredentials, hyes, submitCredentials, after]

/-- The stale error on the example run in which the lookup of the instance name fails: the
command ends with the lookup error after the lookup and the debug message. -/
theorem credentialsRunE_assumeYes_stale_error_witness :
    credentialsRunE
        { exampleCredentialsEnv true none with
          getInstanceName := fun _ _ => .error (.msg (goBytes "not found")) } =
      ([.getInstanceName (goBytes "i1") (goBytes "p1"),
        .debug (goBytes "get instance name: %v")], .ret (some (.msg (goBytes "not found")))) :=
  credentialsRunE_assumeYes_stale_error
    { exampleCredentialsEnv true none with
      getInstanceName := fun _ _ => .error (.msg (goBytes "not found")) }
    (.msg (goBytes "not found")) (by decide) rfl rfl rfl

/-! ## Acceptance and canonical output of `ConvertToSeconds` -/

theorem unitMultiplier_isSome_iff (u : UInt8) :
    (∃ k, unitMultiplier u = some k) ↔
      [u] = goBytes "s" ∨ [u] = goBytes "m" ∨ [u] = goBytes "h" ∨ [u] = goBytes "d" ∨
        [u] = goBytes "M" := by
  have hs : goBytes "s" = [115] := by decide
  have hm : goBytes "m" = [109] := by decide
  have hh : goBytes "h" = [104] := by decide
  have hd : goBytes "d" = [100] := by decide
  have hM : goBytes "M" = [77] := by decide
  rw [hs, hm, hh, hd, hM]
  simp only [List.cons.injEq, and_true]
  constructor
  · rintro ⟨k, hk⟩
    rcases (unitMultiplier_eq_some_iff u k).1 hk with h | h | h | h | h
    · exact Or.inl h.1
    · exact Or.inr (Or.inl h.1)
    · exact Or.inr (Or.inr (Or.inl h.1))
    · exact Or.inr (Or.inr (Or.inr (Or.inl h.1)))
    · exact Or.inr (Or.inr (Or.inr (Or.inr h.1)))
  · rintro (h | h | h | h | h)
    · exact ⟨1, (unitMultiplier_eq_some_iff u 1).2 (Or.inl ⟨h, rfl⟩)⟩
    · exact ⟨60, (unitMultiplier_eq_some_iff u 60).2 (Or.inr (Or.inl ⟨h, rfl⟩))⟩
    · exact ⟨3600, (unitMultiplier_eq_some_iff u 3600).2 (Or.inr (Or.inr (Or.inl ⟨h, rfl⟩)))⟩
    · exact ⟨86400,
        (unitMultiplier_eq_some_iff u 86400).2 (Or.inr (Or.inr (Or.inr (Or.inl ⟨h, rfl⟩))))⟩
    · exact ⟨2592000,
        (unitMultiplier_eq_some_iff u 2592000).2 (Or.inr (Or.inr (Or.inr (Or.inr ⟨h, rfl⟩))))⟩

/-- C13: `ConvertToSeconds` succeeds if and only if its input is one or more ASCII decimal
digits of value at most `2^64 - 1` followed by exactly one of the bytes `s`, `m`, `h`, `d`,
`M`.  In particular `"+30s"`, `"-30s"`, `" 30s"`, `"3 0s"`, `"3_0s"` and the all-digit
magnitude `2^64` in `"18446744073709551616s"` are rejected, while
`"18446744073709551615M"`, whose product overflows, is accepted. -/
theorem ConvertToSeconds_succeeds_iff :
    (∀ s : GoString, (∃ r, ConvertToSeconds s = .ok r) ↔
      ∃ ds u, s = ds ++ [u] ∧ isDecimal ds ∧ decVal ds < 2 ^ 64 ∧
        ([u] = goBytes "s" ∨ [u] = goBytes "m" ∨ [u] = goBytes "h" ∨ [u] = goBytes "d" ∨
          [u] = goBytes "M")) ∧
    ConvertToSeconds (goBytes "+30s") = .error (.invalidTimeValue (goBytes "+30")) ∧
    ConvertToSeconds (goBytes "-30s") = .error (.invalidTimeValue (goBytes "-30")) ∧
    ConvertToSeconds (goBytes " 30s") = .error (.invalidTimeValue (goBytes " 30")) ∧
    ConvertToSeconds (goBytes "3 0s") = .error (.invalidTimeValue (goBytes "3 0")) ∧
    ConvertToSeconds (goBytes "3_0s") = .error (.invalidTimeValue (goBytes "3_0")) ∧
    ConvertToSeconds (goBytes "18446744073709551616s")
      = .error (.invalidTimeValue (goBytes "18446744073709551616")) ∧
    (2 ^ 64 ≤ decVal (goBytes "18446744073709551615") * 2592000 ∧
      ConvertToSeconds (goBytes "18446744073709551615M")
        = .ok (goBytes "18446744073706959616")) := by
  refine ⟨?_, by decide, by decide, by decide, by decide, by decide, by decide, by decide⟩
  intro s
  constructor
  · rintro ⟨r, hr⟩
    obtain ⟨ds, u, k, hs, hdec, hv, hu, -⟩ := (ConvertToSeconds_eq_ok_iff s r).1 hr
    exact ⟨ds, u, hs, hdec, hv, (unitMultiplier_isSome_iff u).1 ⟨k, hu⟩⟩
  · rintro ⟨ds, u, hs, hdec, hv, hu⟩
    obtain ⟨k, hk⟩ := (unitMultiplier_isSome_iff u).2 hu
    exact ⟨_, (ConvertToSeconds_eq_ok_iff s _).2 ⟨ds, u, k, hs, hdec, hv, hk, rfl⟩⟩

/-- C14: whenever `ConvertToSeconds` succeeds with result `r`, the string `r` followed by
`s` is accepted and gives `r` again; `r` is made of decimal digits only (no sign, no
padding) and starts with `0` only when it is the string `0`. -/
theorem ConvertToSeconds_output_canonical (s r : GoString)
    (h : ConvertToSeconds s = .ok r) :
    ConvertToSeconds (r ++ goBytes "s") = .ok r ∧ isDecimal r ∧
      (r.head? = some 48 → r = goBytes "0") := by
  obtain ⟨ds, u, k, -, -, -, -, hr⟩ := (ConvertToSeconds_eq_ok_iff s r).1 h
  have hlt : decVal ds * k % 2 ^ 64 < 2 ^ 64 := Nat.mod_lt _ (by decide)
  obtain ⟨hdec, hval, hhead⟩ := FormatUint_spec _ hlt
  rw [← hr] at hdec hval hhead
  have hs : goBytes "s" = [115] := by decide
  refine ⟨?_, hdec, ?_⟩
  · rw [hs]
    refine (ConvertToSeconds_eq_ok_iff _ _).2
      ⟨r, 115, 1, rfl, hdec, by rw [hval]; exact hlt, by decide, ?_⟩
    rw [hval, Nat.mul_one, Nat.mod_eq_of_lt hlt]
    exact hr
  · intro h0
    rw [hr, hhead h0]
    decide

/-- C14 at `"0030M"`: the result `"77760000"` followed by `s` gives `"77760000"` again. -/
theorem ConvertToSeconds_output_canonical_witness :
    ConvertToSeconds (goBytes "77760000" ++ goBytes "s") = .ok (goBytes "77760000") ∧
      isDecimal (goBytes "77760000") ∧
      ((goBytes "77760000").head? = some 48 → goBytes "77760000" = goBytes "0") :=
  ConvertToSeconds_output_canonical (goBytes "0030M") (goBytes "77760000") (by decide)

/-! ## Nil pointers in `ClusterExists` -/

/-- C15 fails on the code: on a successful response whose `Items` is nil, `ClusterExists`
dereferences `*clusters.Items` and panics; on a response whose clusters have no name it
returns `(false, nil)`, since `cl.Name != nil` guards that dereference. -/
theorem ClusterExists_nil_items_panics :
    ClusterExists { ListClustersExecute := fun _ => (some { Items := none }, none) }
        (goBytes "project") (goBytes "test-cluster") = .panic ∧
    ClusterExists
        { ListClustersExecute := fun _ =>
            (some { Items := some [{ Name := none }, { Name := none }] }, none) }
        (goBytes "project") (goBytes "test-cluster") = .ret (false, none) := by
  decide

/-- On a successful response whose item list is present, whatever the names of its clusters
(set or not), `ClusterExists` returns a boolean and a nil error, and does not panic. -/
theorem ClusterExists_present_items_no_panic (apiClient : SKCFClient)
    (projectId clusterName : GoString) (items : List Cluster)
    (h : apiClient.ListClustersExecute projectId = (some { Items := some items }, none)) :
    ∃ b, ClusterExists apiClient projectId clusterName = .ret (b, none) := by
  refine ⟨rangeItems items clusterName, ?_⟩
  simp [ClusterExists, h]

/-- The absence of a panic on a list of two clusters without a name. -/
theorem ClusterExists_present_items_no_panic_witness :
    ∃ b, ClusterExists
        { ListClustersExecute := fun _ =>
            (some { Items := some [{ Name := none }, { Name := none }] }, none) }
        (goBytes "project") (goBytes "test-cluster") = .ret (b, none) :=
  ClusterExists_present_items_no_panic _ (goBytes "project") (goBytes "test-cluster")
    [{ Name := none }, { Name := none }] rfl

/-! ## The existence check of `skcf cluster create` -/

theorem buildModel_clusterName (env : CreateEnv) (clusterName : GoString)
    (payload : Option CreateOrUpdateClusterPayload) (model : inputModel)
    (h : (buildModel env clusterName payload).2 = .ret (.ok model)) :
    model.ClusterName = clusterName := by
  unfold buildModel at h
  simp only at h
  split at h
  · split at h <;> (cases h; rfl)
  · cases h; rfl

theorem parseInput_clusterName (env : CreateEnv) (model : inputModel)
    (h : (parseInput env).2 = .ret (.ok model)) (clusterName : GoString)
    (rest : List GoString) (hargs : env.inputArgs = clusterName :: rest) :
    model.ClusterName = clusterName := by
  unfold parseInput at h
  rw [hargs] at h
  simp only at h
  split at h
  · cases h
  · split at h
    · exact buildModel_clusterName _ _ _ _ h
    · split at h
      · cases h
      · exact buildModel_clusterName _ _ _ _ h

/-- The run of `createRunE` stops with debug messages at most, or continues with
`confirmCreate` on a model that carries the global flags and the first argument as the
cluster name. -/
theorem createRunE_to_confirm (env : CreateEnv) :
    (∀ e ∈ (createRunE env).1, ∃ t, e = .debug t) ∨
      ∃ dbg model label, (∀ e ∈ dbg, ∃ t, e = .debug t) ∧
        model.toGlobalFlagModel = env.globalFlags ∧
        (∀ clusterName rest, env.inputArgs = clusterName :: rest →
          model.ClusterName = clusterName) ∧
        createRunE env = after dbg (confirmCreate env model label) := by
  have hev := parseInput_events env
  have hmod := parseInput_model env
  have hname := parseInput_clusterName env
  unfold createRunE
  cases hp : parseInput env with
  | mk tr out =>
    rw [hp] at hev hmod hname
    cases out with
    | panic => exact Or.inl hev
    | ret r =>
      cases r with
      | error err => exact Or.inl hev
      | ok model =>
        simp only
        cases env.configureClient with
        | some err => exact Or.inl hev
        | none =>
          simp only
          cases env.getProjectName with
          | error err =>
            refine Or.inr ⟨tr ++ [.debug (goBytes "get project name: %v")], model,
              model.ProjectId, ?_, hmod model rfl, hname model rfl, rfl⟩
            intro e he
            rcases List.mem_append.1 he with he | he
            · exact hev e he
            · exact ⟨_, List.mem_singleton.1 he⟩
          | ok label =>
            exact Or.inr ⟨tr, model, label, hev, hmod model rfl, hname model rfl, rfl⟩

theorem checkExists_stops (env : CreateEnv) (model : inputModel) (label : GoString)
    (h : ClusterExists env.skcfClient model.ProjectId model.ClusterName ≠ .ret (false, none)) :
    (checkExists env model label).1 = [.listClusters model.ProjectId] := by
  unfold checkExists
  cases hce : ClusterExists env.skcfClient model.ProjectId model.ClusterName with
  | panic => rfl
  | ret r =>
    obtain ⟨b, e⟩ := r
    cases e with
    | some err => cases b <;> rfl
    | none =>
      cases b with
      | true => rfl
      | false => exact absurd hce h

theorem checkExists_continues (env : CreateEnv) (model : inputModel) (label : GoString)
    (h : ClusterExists env.skcfClient model.ProjectId model.ClusterName = .ret (false, none)) :
    checkExists env model label
      = after [.listClusters model.ProjectId] (submitCreate env model label) := by
  unfold checkExists
  rw [h]

/-- The run of `createRunE` stops before the existence check, without request and without
wait, or it is such a prefix followed by `checkExists` on a model that carries the global
flags and the first argument as the cluster name. -/
theorem createRunE_check_cases (env : CreateEnv) :
    (∀ e ∈ (createRunE env).1, e.isMutating = false ∧ e.isWait = false) ∨
      ∃ pre model label, (∀ x ∈ pre, x.isMutating = false ∧ x.isWait = false) ∧
        model.toGlobalFlagModel = env.globalFlags ∧
        (∀ clusterName rest, env.inputArgs = clusterName :: rest →
          model.ClusterName = clusterName) ∧
        createRunE env = after pre (checkExists env model label) := by
  let Q : Event → Prop := fun x => x.isMutating = false ∧ x.isWait = false
  have hq : ∀ t, Q (Event.debug t) := fun _ => ⟨rfl, rfl⟩
  rcases createRunE_to_confirm env with h | ⟨dbg, model, label, hdbg, hmodel, hname, hrun⟩
  · left
    intro e he
    obtain ⟨t, rfl⟩ := h e he
    exact hq t
  · obtain ⟨hc1, hc2⟩ := confirmCreate_shape env model label
    rcases Bool.eq_false_or_eq_true model.AssumeYes with hy | hy
    · right
      refine ⟨dbg, model, label, ?_, hmodel, hname, by rw [hrun, hc1 hy]⟩
      intro x hx
      obtain ⟨t, rfl⟩ := hdbg x hx
      exact hq t
    · obtain ⟨p, ⟨err, -, hstop⟩ | ⟨-, hgo⟩⟩ := hc2 hy
      · left
        rw [hrun, hstop]
        exact forall_mem_debug_append Q hq hdbg
          (fun e he => by rw [List.mem_singleton.1 he]; exact ⟨rfl, rfl⟩)
      · right
        refine ⟨dbg ++ [.prompt p], model, label, ?_, hmodel, hname,
          by rw [hrun, hgo, after_after]⟩
        exact forall_mem_debug_append Q hq hdbg
          (fun e he => by rw [List.mem_singleton.1 he]; exact ⟨rfl, rfl⟩)

theorem buildModel_ok (env : CreateEnv) (clusterName : GoString)
    (payload : Option CreateOrUpdateClusterPayload) :
    ∃ tr model, buildModel env clusterName payload = (tr, .ret (.ok model)) := by
  unfold buildModel
  simp only
  split
  · split
    · exact ⟨_, _, rfl⟩
    · exact ⟨_, _, rfl⟩
  · exact ⟨_, _, rfl⟩

/-- With an argument, a project id and a payload flag that is unset or holds valid JSON,
`parseInput` returns a model. -/
theorem parseInput_ok (env : CreateEnv) (clusterName : GoString) (rest : List GoString)
    (hargs : env.inputArgs = clusterName :: rest)
    (hproject : env.globalFlags.ProjectId ≠ goBytes "")
    (hpayload : ∀ value, env.payloadValue = some value → ∃ p, env.jsonUnmarshal value = .ok p) :
    ∃ tr model, parseInput env = (tr, .ret (.ok model)) := by
  unfold parseInput
  rw [hargs]
  simp only
  rw [if_neg hproject]
  cases hv : env.payloadValue with
  | none => exact buildModel_ok env clusterName none
  | some value =>
    obtain ⟨p, hp⟩ := hpayload value hv
    simp only [hp]
    exact buildModel_ok env clusterName (some p)

/-- When the input parses, the client is configured and the prompt (if any) is confirmed,
the run of `createRunE` is a prefix without request and wait followed by `checkExists`. -/
theorem createRunE_reaches_check (env : CreateEnv) (clusterName : GoString)
    (rest : List GoString) (hargs : env.inputArgs = clusterName :: rest)
    (hproject : env.globalFlags.ProjectId ≠ goBytes "")
    (hpayload : ∀ value, env.payloadValue = some value → ∃ p, env.jsonUnmarshal value = .ok p)
    (hclient : env.configureClient = none)
    (hconfirm : env.globalFlags.AssumeYes = true ∨
      ∀ text, env.promptForConfirmation text = none) :
    ∃ pre model label, (∀ x ∈ pre, x.isMutating = false ∧ x.isWait = false) ∧
      model.ProjectId = env.globalFlags.ProjectId ∧ model.ClusterName = clusterName ∧
      createRunE env = after pre (checkExists env model label) := by
  let Q : Event → Prop := fun x => x.isMutating = false ∧ x.isWait = false
  have hq : ∀ t, Q (Event.debug t) := fun _ => ⟨rfl, rfl⟩
  obtain ⟨tr, model, hparse⟩ := parseInput_ok env clusterName rest hargs hproject hpayload
  have hev := parseInput_events env
  have hmodel := parseInput_model env model (by rw [hparse])
  have hname := parseInput_clusterName env model (by rw [hparse]) clusterName rest hargs
  rw [hparse] at hev
  have hpid : model.ProjectId = env.globalFlags.ProjectId := by rw [← hmodel]
  have hyes : model.AssumeYes = env.globalFlags.AssumeYes := by rw [← hmodel]
  have hconf : ∀ label, ∃ mid, (∀ x ∈ mid, Q x) ∧
      confirmCreate env model label = after mid (checkExists env model label) := by
    intro label
    obtain ⟨hc1, hc2⟩ := confirmCreate_shape env model label
    rcases Bool.eq_false_or_eq_true model.AssumeYes with hy | hy
    · exact ⟨[], fun x hx => absurd hx (List.not_mem_nil x), by rw [hc1 hy]; simp [after]⟩
    · obtain ⟨p, ⟨err, hp, -⟩ | ⟨-, hgo⟩⟩ := hc2 hy
      · exfalso
        rcases hconfirm with h | h
        · rw [hyes, h] at hy
          cases hy
        · rw [h p] at hp
          cases hp
      · exact ⟨[.prompt p],
          fun x hx => by rw [List.mem_singleton.1 hx]; exact ⟨rfl, rfl⟩, hgo⟩
  have hrun : ∃ dbg label, (∀ e ∈ dbg, ∃ t, e = Event.debug t) ∧
      createRunE env = after dbg (confirmCreate env model label) := by
    unfold createRunE
    rw [hparse]
    simp only [hclient]
    cases env.getProjectName with
    | error err =>
      refine ⟨tr ++ [.debug (goBytes "get project name: %v")], model.ProjectId, ?_, rfl⟩
      intro e he
      rcases List.mem_append.1 he with he | he
      · exact hev e he
      · exact ⟨_, List.mem_singleton.1 he⟩
    | ok label => exact ⟨tr, label, hev, rfl⟩
  obtain ⟨dbg, label, hdbg, hrun⟩ := hrun
  obtain ⟨mid, hmid, hc⟩ := hconf label
  refine ⟨dbg ++ mid, model, label, ?_, hpid, hname, by rw [hrun, hc, after_after]⟩
  exact forall_mem_debug_append Q hq hdbg hmid

/-- C16: the cluster create command, run for the name `clusterName`, never executes the
create request and never calls the wait handler unless `ClusterExists` returned
`(false, nil)` for that name, so not for a name that already exists and not when the
existence could not be checked; every create request it executes is for that project and
name and comes after the list call of the check.  And when the input parses, the client is
configured and the prompt, if any, is confirmed, the check is made: if `ClusterExists`
returns `(true, nil)` the command returns the error
`cluster with name <clusterName> already exists`, and if `ClusterExists` returns an error the
command returns that error. -/
theorem createRunE_existing_cluster_not_created (env : CreateEnv) (clusterName : GoString)
    (rest : List GoString) (hargs : env.inputArgs = clusterName :: rest) :
    (ClusterExists env.skcfClient env.globalFlags.ProjectId clusterName ≠ .ret (false, none) →
      ∀ e ∈ (createRunE env).1, e.isMutating = false ∧ e.isWait = false) ∧
    (∀ pre e post, (createRunE env).1 = pre ++ e :: post → e.isMutating = true →
      Event.listClusters env.globalFlags.ProjectId ∈ pre ∧
      (∃ payload, e = .createCluster env.globalFlags.ProjectId clusterName payload) ∧
      ClusterExists env.skcfClient env.globalFlags.ProjectId clusterName
        = .ret (false, none)) ∧
    (env.globalFlags.ProjectId ≠ goBytes "" →
      (∀ value, env.payloadValue = some value → ∃ p, env.jsonUnmarshal value = .ok p) →
      env.configureClient = none →
      (env.globalFlags.AssumeYes = true ∨ ∀ text, env.promptForConfirmation text = none) →
        Event.listClusters env.globalFlags.ProjectId ∈ (createRunE env).1 ∧
        (ClusterExists env.skcfClient env.globalFlags.ProjectId clusterName
            = .ret (true, none) →
          (createRunE env).2 = .ret (some (.msg (goBytes "cluster with name " ++ clusterName
            ++ goBytes " already exists")))) ∧
        (∀ b err,
          ClusterExists env.skcfClient env.globalFlags.ProjectId clusterName
              = .ret (b, some err) →
            (createRunE env).2 = .ret (some err))) := by
  have hsafe : ClusterExists env.skcfClient env.globalFlags.ProjectId clusterName
        ≠ .ret (false, none) →
      ∀ e ∈ (createRunE env).1, e.isMutating = false ∧ e.isWait = false := by
    intro hne e he
    rcases createRunE_check_cases env with h | ⟨pre, model, label, hpre, hmodel, hname, hrun⟩
    · exact h e he
    · have hpid : model.ProjectId = env.globalFlags.ProjectId := by rw [← hmodel]
      have hcn : model.ClusterName = clusterName := hname clusterName rest hargs
      have hstop := checkExists_stops env model label (by rw [hpid, hcn]; exact hne)
      rw [hrun, after_fst, hstop] at he
      rcases List.mem_append.1 he with he | he
      · exact hpre e he
      · rw [List.mem_singleton.1 he]
        exact ⟨rfl, rfl⟩
  refine ⟨hsafe, ?_, ?_⟩
  · intro pre' e post hsplit hmut
    have hmem : e ∈ (createRunE env).1 := by rw [hsplit]; simp
    have hce : ClusterExists env.skcfClient env.globalFlags.ProjectId clusterName
        = .ret (false, none) := by
      by_cases hce : ClusterExists env.skcfClient env.globalFlags.ProjectId clusterName
          = .ret (false, none)
      · exact hce
      · have := (hsafe hce e hmem).1
        rw [hmut] at this
        cases this
    rcases createRunE_check_cases env with h | ⟨pre, model, label, hpre, hmodel, hname, hrun⟩
    · have := (h e hmem).1
      rw [hmut] at this
      cases this
    · have hpid : model.ProjectId = env.globalFlags.ProjectId := by rw [← hmodel]
      have hcn : model.ClusterName = clusterName := hname clusterName rest hargs
      have hgo := checkExists_continues env model label (by rw [hpid, hcn]; exact hce)
      obtain ⟨pl, tail, htr, htail, -⟩ := submitCreate_shape env model label
      have htrace : (pre ++ [.listClusters model.ProjectId])
          ++ .createCluster model.ProjectId model.ClusterName pl :: tail
          = pre' ++ e :: post := by
        rw [← hsplit, hrun, hgo, after_fst, after_fst, htr]
        simp
      obtain ⟨hpre', he, -⟩ := split_unique Event.isMutating
        (pre ++ [.listClusters model.ProjectId])
        (fun x hx => by
          rcases List.mem_append.1 hx with hx | hx
          · exact (hpre x hx).1
          · rw [List.mem_singleton.1 hx]; rfl)
        (fun x hx => (htail x hx).1) hmut htrace
      refine ⟨?_, ⟨pl, ?_⟩, hce⟩
      · rw [hpre', ← hpid]
        simp
      · rw [he, hpid, hcn]
  · intro hproject hpayload hclient hconfirm
    obtain ⟨pre, model, label, hpre, hpid, hcn, hrun⟩ :=
      createRunE_reaches_check env clusterName rest hargs hproject hpayload hclient hconfirm
    have hlist : Event.listClusters model.ProjectId ∈ (checkExists env model label).1 := by
      unfold checkExists
      simp [after]
    refine ⟨?_, ?_, ?_⟩
    · rw [hrun, after_fst, ← hpid]
      exact List.mem_append_right _ hlist
    · intro h
      have hck : (checkExists env model label).2
          = .ret (some (.msg (goBytes "cluster with name " ++ clusterName
            ++ goBytes " already exists"))) := by
        unfold checkExists
        rw [hpid, hcn, h]
        rfl
      rw [hrun, after_snd, hck]
    · intro b err h
      have hck : (checkExists env model label).2 = .ret (some err) := by
        unfold checkExists
        rw [hpid, hcn, h]
        cases b <;> rfl
      rw [hrun, after_snd, hck]

/-- C16 on the example run against a project in which `my-cluster` is listed: the check is
made, the command ends with the error `cluster with name my-cluster already exists`, and
the run holds no create request and no wait. -/
theorem createRunE_existing_cluster_not_created_witness :
    (∀ e ∈ (createRunE (exampleCreateEnvWith exampleExistingClient none)).1,
        e.isMutating = false ∧ e.isWait = false) ∧
      Event.listClusters (goBytes "p1")
        ∈ (createRunE (exampleCreateEnvWith exampleExistingClient none)).1 ∧
      (createRunE (exampleCreateEnvWith exampleExistingClient none)).2
        = .ret (some (.msg (goBytes "cluster with name my-cluster already exists"))) :=
  have h := createRunE_existing_cluster_not_created
    (exampleCreateEnvWith exampleExistingClient none) (goBytes "my-cluster") [] rfl
  have h3 := h.2.2 (by decide) (fun _ hv => nomatch hv) rfl (Or.inl rfl)
  ⟨h.1 (by decide), h3.1, h3.2.1 (by decide)⟩

/-! ## The wait and the output of `skcf cluster create` -/

theorem outputResult_default_text (env : CreateEnv) (model : inputModel) (label : GoString)
    (resp : Cluster) (hj : model.OutputFormat ≠ env.JSONOutputFormat)
    (hy : model.OutputFormat ≠ env.YAMLOutputFormat) :
    ∀ text, Event.output text ∈ (outputResult env model label resp).1 →
      ∃ tail, text
        = (if model.Async then goBytes "Triggered creation of" else goBytes "Created")
          ++ tail := by
  intro text h
  unfold outputResult at h
  rw [if_neg hj, if_neg hy] at h
  simp only at h
  cases hn : resp.Name with
  | none =>
    rw [hn] at h
    exact absurd h (List.not_mem_nil _)
  | some name =>
    rw [hn] at h
    have := List.mem_singleton.1 h
    injection this with this
    refine ⟨goBytes " cluster for project " ++ (env.quote label
      ++ (goBytes ". Cluster name: " ++ (name ++ goBytes "\n"))), ?_⟩
    rw [this]
    simp only [List.append_assoc]

/-- The run of `waitAndOutput` without `Async`: the spinner and the wait, and then either
the wrapped error of the wait, or the stop of the spinner and `outputResult`. -/
theorem waitAndOutput_sync_cases (env : CreateEnv) (model : inputModel) (label : GoString)
    (resp : Cluster) (name : GoString) (h : model.Async = false) :
    (∃ err, env.waitWithContext model.ProjectId name = some err ∧
      waitAndOutput env model label resp name
        = ([.spinnerStart (goBytes "Creating cluster"), .waitCluster model.ProjectId name],
          .ret (some (.wrap (goBytes "wait for SKCF cluster creation") err)))) ∨
    (env.waitWithContext model.ProjectId name = none ∧
      waitAndOutput env model label resp name
        = after [.spinnerStart (goBytes "Creating cluster"),
            .waitCluster model.ProjectId name, .spinnerStop]
          (outputResult env model label resp)) := by
  unfold waitAndOutput
  simp only [h, Bool.not_false, if_true]
  cases hw : env.waitWithContext model.ProjectId name with
  | some err => exact Or.inl ⟨err, rfl, rfl⟩
  | none => exact Or.inr ⟨rfl, rfl⟩

/-- The run of `submitCreate` is the create request alone, or the create request followed
by `waitAndOutput` on a model with the same global flags. -/
theorem submitCreate_cases (env : CreateEnv) (model : inputModel) (label : GoString) :
    ∃ pl, (submitCreate env model label).1
        = [.createCluster model.ProjectId model.ClusterName pl] ∨
      ∃ (model' : inputModel) (resp : Cluster) (name : GoString),
        model'.toGlobalFlagModel = model.toGlobalFlagModel ∧
        submitCreate env model label
          = after [.createCluster model.ProjectId model.ClusterName pl]
            (waitAndOutput env model' label resp name) := by
  have key : ∀ (m' : inputModel) (pl : CreateOrUpdateClusterPayload)
      (x : Option Cluster × Option GoError) (run : List Event × Run (Option GoError)),
      run = after [Event.createCluster model.ProjectId model.ClusterName pl]
        (match x with
         | (_, some err) => ([], .ret (some (.wrap (goBytes "create SKCF cluster") err)))
         | (none, none) => ([], .panic)
         | (some resp, none) =>
           match resp.Name with
           | none => ([], .panic)
           | some name => waitAndOutput env m' label resp name) →
      run.1 = [.createCluster model.ProjectId model.ClusterName pl] ∨
        ∃ (resp : Cluster) (name : GoString),
          run = after [.createCluster model.ProjectId model.ClusterName pl]
            (waitAndOutput env m' label resp name) := by
    intro m' pl x run hrun
    obtain ⟨r, e⟩ := x
    cases e with
    | some err => cases r <;> (left; rw [hrun]; rfl)
    | none =>
      cases r with
      | none => left; rw [hrun]; rfl
      | some resp =>
        cases hn : resp.Name with
        | none =>
          left
          rw [hrun]
          simp only [hn]
          rfl
        | some name =>
          right
          refine ⟨resp, name, ?_⟩
          rw [hrun]
          simp only [hn]
  obtain ⟨g, cn, pay⟩ := model
  cases pay with
  | none =>
    refine ⟨{ content := goBytes "" }, ?_⟩
    rcases key _ _ _ _ (rfl : submitCreate env ⟨g, cn, none⟩ label = _) with h | ⟨resp, name, h⟩
    · exact Or.inl h
    · exact Or.inr ⟨_, resp, name, rfl, h⟩
  | some p =>
    refine ⟨p, ?_⟩
    rcases key _ _ _ _ (rfl : submitCreate env ⟨g, cn, some p⟩ label = _) with h | ⟨resp, name, h⟩
    · exact Or.inl h
    · exact Or.inr ⟨_, resp, name, rfl, h⟩

/-- The run of `createRunE` holds no wait and no output, or it is a prefix without wait
and output followed by `waitAndOutput` on a model that carries the global flags. -/
theorem createRunE_to_wait (env : CreateEnv) :
    (∀ e ∈ (createRunE env).1, e.isWait = false ∧ e.isOutput = false) ∨
      ∃ pre model label resp name,
        (∀ e ∈ pre, e.isWait = false ∧ e.isOutput = false) ∧
        model.toGlobalFlagModel = env.globalFlags ∧
        createRunE env = after pre (waitAndOutput env model label resp name) := by
  obtain ⟨a, ha, -, hcase⟩ := createRunE_reach env
  rcases hcase with hstop | ⟨model, label, hmodel, hrun, -⟩
  · left
    intro e he
    rw [hstop] at he
    exact (ha e he).2
  · obtain ⟨pl, hone | ⟨model', resp, name, hm', hsub⟩⟩ := submitCreate_cases env model label
    · left
      intro e he
      rw [hrun, after_fst, hone] at he
      rcases List.mem_append.1 he with he | he
      · exact (ha e he).2
      · rw [List.mem_singleton.1 he]
        exact ⟨rfl, rfl⟩
    · right
      refine ⟨a ++ [.createCluster model.ProjectId model.ClusterName pl], model', label, resp,
        name, ?_, hm'.trans hmodel, by rw [hrun, hsub, after_after]⟩
      intro e he
      rcases List.mem_append.1 he with he | he
      · exact (ha e he).2
      · rw [List.mem_singleton.1 he]
        exact ⟨rfl, rfl⟩

theorem created_not_prefix_triggered (t1 t2 : GoString) :
    goBytes "Created" ++ t1 ≠ goBytes "Triggered creation of" ++ t2 := by
  have hC : goBytes "Created" = 67 :: goBytes "reated" := by decide
  have hT : goBytes "Triggered creation of" = 84 :: goBytes "riggered creation of" := by
    decide
  rw [hC, hT]
  intro h
  simp only [List.cons_append, List.cons.injEq] at h
  exact absurd h.1 (by decide)

/-- C17: in the cluster create command, with `Async` unset, if the wait handler call that
was made returns an error, the command returns `wait for SKCF cluster creation: %w` around
that error and writes no output; and every output written in the default format (neither
JSON nor YAML) starts with `Created` exactly when `Async` is unset and with
`Triggered creation of` exactly when `Async` is set. -/
theorem createRunE_wait_error_and_output_verb (env : CreateEnv) :
    (env.globalFlags.Async = false → ∀ projectId name err,
      Event.waitCluster projectId name ∈ (createRunE env).1 →
      env.waitWithContext projectId name = some err →
        (createRunE env).2
          = .ret (some (.wrap (goBytes "wait for SKCF cluster creation") err)) ∧
        (GoError.wrap (goBytes "wait for SKCF cluster creation") err).Unwrap = some err ∧
        ∀ e ∈ (createRunE env).1, e.isOutput = false) ∧
    (env.globalFlags.OutputFormat ≠ env.JSONOutputFormat →
      env.globalFlags.OutputFormat ≠ env.YAMLOutputFormat →
      ∀ text, Event.output text ∈ (createRunE env).1 →
        (goBytes "Created" <+: text ↔ env.globalFlags.Async = false) ∧
        (goBytes "Triggered creation of" <+: text ↔ env.globalFlags.Async = true)) := by
  constructor
  · intro hasync projectId name err hmem hwait
    rcases createRunE_to_wait env with hnone | ⟨pre, model, label, resp, nm, hpre, hmodel, hrun⟩
    · have := (hnone _ hmem).1
      cases this
    · have ha : model.Async = false := by rw [hmodel]; exact hasync
      rw [hrun] at hmem
      rcases waitAndOutput_sync_cases env model label resp nm ha with
        ⟨err', hw, hcase⟩ | ⟨hw, hcase⟩
      · rw [hcase] at hmem hrun
        have hev : Event.waitCluster projectId name = Event.waitCluster model.ProjectId nm := by
          rcases (mem_after _ _ _).1 hmem with h | h
          · have := (hpre _ h).1
            cases this
          · rcases List.mem_cons.1 h with h | h
            · cases h
            · exact List.mem_singleton.1 h
        injection hev with h1 h2
        subst h1 h2
        rw [hw] at hwait
        injection hwait with hwait
        subst hwait
        refine ⟨by rw [hrun]; rfl, rfl, ?_⟩
        intro e he
        rw [hrun] at he
        rcases (mem_after _ _ _).1 he with h | h
        · exact (hpre e h).2
        · rcases List.mem_cons.1 h with h | h
          · rw [h]; rfl
          · rw [List.mem_singleton.1 h]; rfl
      · exfalso
        rw [hcase] at hmem
        have hev : Event.waitCluster projectId name = Event.waitCluster model.ProjectId nm := by
          rcases (mem_after _ _ _).1 hmem with h | h
          · have := (hpre _ h).1
            cases this
          · rcases (mem_after _ _ _).1 h with h | h
            · rcases List.mem_cons.1 h with h | h
              · cases h
              · rcases List.mem_cons.1 h with h | h
                · exact h
                · have := List.mem_singleton.1 h
                  cases this
            · obtain ⟨t, ht⟩ := outputResult_events env model label resp _ h
              cases ht
        injection hev with h1 h2
        subst h1 h2
        rw [hw] at hwait
        cases hwait
  · intro hj hy text hmem
    rcases createRunE_to_wait env with hnone | ⟨pre, model, label, resp, nm, hpre, hmodel, hrun⟩
    · have := (hnone _ hmem).2
      cases this
    · have hfmt : model.OutputFormat = env.globalFlags.OutputFormat := by rw [← hmodel]
      have hasync : model.Async = env.globalFlags.Async := by rw [← hmodel]
      have hout : Event.output text ∈ (outputResult env model label resp).1 := by
        rw [hrun] at hmem
        rcases (mem_after _ _ _).1 hmem with h | h
        · have := (hpre _ h).2
          cases this
        · rcases Bool.eq_false_or_eq_true model.Async with ha | ha
          · rw [waitAndOutput_async env model label resp nm ha] at h
            exact h
          · rcases waitAndOutput_sync_cases env model label resp nm ha with
              ⟨err', -, hcase⟩ | ⟨-, hcase⟩
            · rw [hcase] at h
              rcases List.mem_cons.1 h with h | h
              · cases h
              · have := List.mem_singleton.1 h
                cases this
            · rw [hcase] at h
              rcases (mem_after _ _ _).1 h with h | h
              · rcases List.mem_cons.1 h with h | h
                · cases h
                · rcases List.mem_cons.1 h with h | h
                  · cases h
                  · have := List.mem_singleton.1 h
                    cases this
              · exact h
      obtain ⟨tail, htext⟩ := outputResult_default_text env model label resp
        (by rw [hfmt]; exact hj) (by rw [hfmt]; exact hy) text hout
      rw [hasync] at htext
      rcases Bool.eq_false_or_eq_true env.globalFlags.Async with ha | ha
      · rw [ha] at htext
        simp only [if_true] at htext
        rw [ha, htext]
        refine ⟨⟨?_, fun h => by cases h⟩, ⟨fun _ => rfl, fun _ => ⟨tail, rfl⟩⟩⟩
        rintro ⟨t, ht⟩
        exact absurd ht (created_not_prefix_triggered t tail)
      · rw [ha] at htext
        simp only [Bool.false_eq_true, if_false] at htext
        rw [ha, htext]
        refine ⟨⟨fun _ => rfl, fun _ => ⟨tail, rfl⟩⟩, ⟨?_, fun h => by cases h⟩⟩
        rintro ⟨t, ht⟩
        exact absurd ht.symm (created_not_prefix_triggered tail t)

/-- C17 on the example runs: a wait that fails with `timed out` ends the command with the
wrapped error and no output, and with `Async` set the output starts with
`Triggered creation of`. -/
theorem createRunE_wait_error_and_output_verb_witness :
    ((createRunE (exampleCreateEnvWith exampleEmptyClient
          (some (.msg (goBytes "timed out"))))).2
        = .ret (some (.wrap (goBytes "wait for SKCF cluster creation")
            (.msg (goBytes "timed out")))) ∧
      ∀ e ∈ (createRunE (exampleCreateEnvWith exampleEmptyClient
          (some (.msg (goBytes "timed out"))))).1, e.isOutput = false) ∧
    goBytes "Triggered creation of" <+: goBytes
      "Triggered creation of cluster for project \"my-project\". Cluster name: my-cluster\n" :=
  ⟨⟨((createRunE_wait_error_and_output_verb (exampleCreateEnvWith exampleEmptyClient
        (some (.msg (goBytes "timed out"))))).1 rfl (goBytes "p1") (goBytes "my-cluster")
        (.msg (goBytes "timed out")) (by decide) rfl).1,
      ((createRunE_wait_error_and_output_verb (exampleCreateEnvWith exampleEmptyClient
        (some (.msg (goBytes "timed out"))))).1 rfl (goBytes "p1") (goBytes "my-cluster")
        (.msg (goBytes "timed out")) (by decide) rfl).2.2⟩,
    (((createRunE_wait_error_and_output_verb (exampleCreateEnv true true none)).2
      (by decide) (by decide)
      (goBytes
        "Triggered creation of cluster for project \"my-project\". Cluster name: my-cluster\n")
      (by decide)).2).2 rfl⟩

/-! ## The wait handler of the specification -/

theorem pollTrace_countP_isQuery (interval : Nat) :
    ∀ k n, (pollTrace interval n k).countP WaitEvent.isQuery = k + 1 := by
  intro k
  induction k with
  | zero => intro n; rfl
  | succ k ih =>
    intro n
    rw [pollTrace, List.countP_cons_of_pos _ _ (by rfl),
      List.countP_cons_of_neg _ _ (by simp [WaitEvent.isQuery]), ih]

theorem pollTrace_countP_isSleep (interval : Nat) :
    ∀ k n, (pollTrace interval n k).countP WaitEvent.isSleep = k := by
  intro k
  induction k with
  | zero => intro n; rfl
  | succ k ih =>
    intro n
    rw [pollTrace, List.countP_cons_of_neg _ _ (by simp [WaitEvent.isSleep]),
      List.countP_cons_of_pos _ _ (by rfl), ih]

theorem pollTrace_getLast (interval : Nat) :
    ∀ k n, (pollTrace interval n k).getLast? = some (.query (n + k)) := by
  intro k
  induction k with
  | zero => intro n; rfl
  | succ k ih =>
    intro n
    have hne : pollTrace interval (n + 1) k ≠ [] := by
      cases k <;> simp [pollTrace]
    rw [pollTrace, List.getLast?_cons_cons, List.getLast?_eq_getLast _ (List.cons_ne_nil _ _),
      List.getLast_cons hne, ← List.getLast?_eq_getLast _ hne, ih]
    congr 2
    omega

theorem pollTrace_query_le (interval : Nat) :
    ∀ k n j, WaitEvent.query j ∈ pollTrace interval n k → j ≤ n + k := by
  intro k
  induction k with
  | zero =>
    intro n j h
    have := List.mem_singleton.1 h
    injection this with this
    omega
  | succ k ih =>
    intro n j h
    rw [pollTrace] at h
    rcases List.mem_cons.1 h with h | h
    · injection h with h
      omega
    · rcases List.mem_cons.1 h with h | h
      · cases h
      · have := ih (n + 1) j h
        omega

/-- With fuel for `k + 1` polls, a wait that is neither cancelled nor timed out while it
meets `k` non-terminal statuses and then a terminal one ends with the outcome of the
terminal status, after `k` queries each followed by a suspension and one last query. -/
theorem waitLoop_terminal {ρ : Type} (statusClient : Nat → Except GoError (OperationStatus ρ))
    (policy : PollingPolicy) (cancel : Nat → Bool) (outcome : Except WaitError ρ)
    (status : OperationStatus ρ) (hclass : classify status = some outcome) :
    ∀ (k fuel n elapsed : Nat),
      (∀ i < k, ∃ st, statusClient (n + i) = .ok st ∧ classify st = none) →
      statusClient (n + k) = .ok status →
      (∀ i ≤ k, cancel (elapsed + i * policy.interval) = false) →
      (∀ i ≤ k, deadlineExceeded policy (elapsed + i * policy.interval) = false) →
      k < fuel →
      waitLoop statusClient policy cancel fuel n elapsed
        = (pollTrace policy.interval n k, some outcome) := by
  intro k
  induction k with
  | zero =>
    intro fuel n elapsed _ hlast hcancel hdeadline hfuel
    obtain ⟨fuel, rfl⟩ : ∃ f, fuel = f + 1 := ⟨fuel - 1, by omega⟩
    have hc := hcancel 0 (Nat.le_refl 0)
    have hd := hdeadline 0 (Nat.le_refl 0)
    simp only [Nat.zero_mul, Nat.add_zero] at hc hd hlast
    rw [waitLoop, hc, hd]
    simp only [Bool.false_eq_true, if_false, hlast, hclass]
    rfl
  | succ k ih =>
    intro fuel n elapsed hnon hlast hcancel hdeadline hfuel
    obtain ⟨fuel, rfl⟩ : ∃ f, fuel = f + 1 := ⟨fuel - 1, by omega⟩
    have hc := hcancel 0 (Nat.zero_le _)
    have hd := hdeadline 0 (Nat.zero_le _)
    obtain ⟨st, hst, hcl⟩ := hnon 0 (Nat.succ_pos k)
    simp only [Nat.zero_mul, Nat.add_zero] at hc hd hst
    have hrec := ih fuel (n + 1) (elapsed + policy.interval)
      (fun i hi => by
        have := hnon (i + 1) (by omega)
        rwa [show n + (i + 1) = n + 1 + i by omega] at this)
      (by rwa [show n + (k + 1) = n + 1 + k by omega] at hlast)
      (fun i hi => by
        have := hcancel (i + 1) (by omega)
        rwa [show elapsed + (i + 1) * policy.interval
          = elapsed + policy.interval + i * policy.interval by
            rw [Nat.add_mul, Nat.one_mul]; omega] at this)
      (fun i hi => by
        have := hdeadline (i + 1) (by omega)
        rwa [show elapsed + (i + 1) * policy.interval
          = elapsed + policy.interval + i * policy.interval by
            rw [Nat.add_mul, Nat.one_mul]; omega] at this)
      (by omega)
    rw [waitLoop, hc, hd]
    simp only [Bool.false_eq_true, if_false, hst, hcl, hrec]
    rfl

theorem classify_of_non_terminal {ρ : Type} {r : Except GoError (OperationStatus ρ)}
    (h : r = .ok .Pending ∨ r = .ok .InProgress) : ∃ st, r = .ok st ∧ classify st = none := by
  rcases h with h | h
  · exact ⟨_, h, rfl⟩
  · exact ⟨_, h, rfl⟩

theorem deadlineExceeded_eq_false (policy : PollingPolicy) (t bound : Nat)
    (h : ∀ b, policy.maxElapsed = some b → bound ≤ b) (ht : t ≤ bound) :
    deadlineExceeded policy t = false := by
  unfold deadlineExceeded
  cases hm : policy.maxElapsed with
  | none => rfl
  | some b =>
    have := h b hm
    simp only [decide_eq_false_iff_not, Nat.not_lt]
    omega

/-- The wait handler on `k` non-terminal statuses followed by a terminal one of outcome
`outcome`, when no cancellation is signaled and no deadline exceeded within `k` intervals. -/
theorem WaitHandler_terminal {ρ : Type} (fuel : Nat)
    (statusClient : Nat → Except GoError (OperationStatus ρ)) (policy : PollingPolicy)
    (cancel : Nat → Bool) (k : Nat) (status : OperationStatus ρ) (outcome : Except WaitError ρ)
    (hnon : ∀ i < k, statusClient i = .ok .Pending ∨ statusClient i = .ok .InProgress)
    (hlast : statusClient k = .ok status) (hclass : classify status = some outcome)
    (hcancel : ∀ t ≤ k * policy.interval, cancel t = false)
    (hdeadline : ∀ bound, policy.maxElapsed = some bound → k * policy.interval ≤ bound)
    (hfuel : k < fuel) :
    WaitHandler fuel statusClient policy cancel
      = (pollTrace policy.interval 0 k, some outcome) := by
  unfold WaitHandler
  refine waitLoop_terminal statusClient policy cancel outcome status hclass k fuel 0 0
    ?_ ?_ ?_ ?_ hfuel
  · intro i hi
    rw [Nat.zero_add]
    exact classify_of_non_terminal (hnon i hi)
  · rw [Nat.zero_add]
    exact hlast
  · intro i hi
    rw [Nat.zero_add]
    exact hcancel _ (Nat.mul_le_mul_right _ hi)
  · intro i hi
    rw [Nat.zero_add]
    exact deadlineExceeded_eq_false policy _ _ hdeadline (Nat.mul_le_mul_right _ hi)

/-- C11: on a status sequence of `k` non-terminal statuses (`Pending` or `InProgress`)
followed by `Succeeded(x)`, the wait handler of the specification, with fuel for `k + 1`
polls and neither cancelled nor timed out within `k` intervals (as under the
`context.Background()` of the create command and a policy without deadline), returns `x`;
its events are `k` queries each followed by a suspension and one last query: exactly
`k + 1` queries and `k` suspensions, so none when `Succeeded` comes on the first poll. -/
theorem WaitHandler_succeeded_after_polls {ρ : Type} (fuel : Nat)
    (statusClient : Nat → Except GoError (OperationStatus ρ)) (policy : PollingPolicy)
    (cancel : Nat → Bool) (k : Nat) (x : ρ)
    (hnon : ∀ i < k, statusClient i = .ok .Pending ∨ statusClient i = .ok .InProgress)
    (hsucc : statusClient k = .ok (.Succeeded x))
    (hcancel : ∀ t ≤ k * policy.interval, cancel t = false)
    (hdeadline : ∀ bound, policy.maxElapsed = some bound → k * policy.interval ≤ bound)
    (hfuel : k < fuel) :
    WaitHandler fuel statusClient policy cancel
        = (pollTrace policy.interval 0 k, some (.ok x)) ∧
      (pollTrace policy.interval 0 k).countP WaitEvent.isQuery = k + 1 ∧
      (pollTrace policy.interval 0 k).countP WaitEvent.isSleep = k :=
  ⟨WaitHandler_terminal fuel statusClient policy cancel k (.Succeeded x) (.ok x) hnon hsucc rfl
      hcancel hdeadline hfuel,
    pollTrace_countP_isQuery _ k 0, pollTrace_countP_isSleep _ k 0⟩

/-- C11 on `[Pending, InProgress, Succeeded(x)]` under the background context and a policy
of interval 5 without deadline: the result is `x` after three queries and two
suspensions. -/
theorem WaitHandler_succeeded_after_polls_witness :
    WaitHandler 3
        (statusesOf [.Pending, .InProgress, .Succeeded (goBytes "x")])
        { interval := 5, maxElapsed := none } backgroundContext
      = ([.query 0, .sleep 5, .query 1, .sleep 5, .query 2], some (.ok (goBytes "x"))) ∧
    (pollTrace 5 0 2).countP WaitEvent.isQuery = 3 ∧
    (pollTrace 5 0 2).countP WaitEvent.isSleep = 2 :=
  WaitHandler_succeeded_after_polls 3
    (statusesOf [.Pending, .InProgress, .Succeeded (goBytes "x")])
    { interval := 5, maxElapsed := none } backgroundContext 2 (goBytes "x")
    (by decide) rfl (fun _ _ => rfl) (fun _ h => by cases h) (by decide)

/-- C12: on a status sequence whose first terminal status is `Failed(reason)`, after `k`
non-terminal statuses and whatever comes later, the wait handler of the specification, with
fuel for `k + 1` polls and neither cancelled nor timed out within `k` intervals, returns
the error `OperationFailed(reason)`; its last event is the query that returned `Failed`,
the `k`-th, and it makes `k + 1` queries, none of them after that one. -/
theorem WaitHandler_failed_stops_polling {ρ : Type} (fuel : Nat)
    (statusClient : Nat → Except GoError (OperationStatus ρ)) (policy : PollingPolicy)
    (cancel : Nat → Bool) (k : Nat) (reason : GoString)
    (hnon : ∀ i < k, statusClient i = .ok .Pending ∨ statusClient i = .ok .InProgress)
    (hfail : statusClient k = .ok (.Failed reason))
    (hcancel : ∀ t ≤ k * policy.interval, cancel t = false)
    (hdeadline : ∀ bound, policy.maxElapsed = some bound → k * policy.interval ≤ bound)
    (hfuel : k < fuel) :
    WaitHandler fuel statusClient policy cancel
        = (pollTrace policy.interval 0 k, some (.error (.OperationFailed reason))) ∧
      (pollTrace policy.interval 0 k).getLast? = some (.query k) ∧
      (pollTrace policy.interval 0 k).countP WaitEvent.isQuery = k + 1 ∧
      ∀ j, WaitEvent.query j ∈ pollTrace policy.interval 0 k → j ≤ k := by
  refine ⟨WaitHandler_terminal fuel statusClient policy cancel k (.Failed reason)
      (.error (.OperationFailed reason)) hnon hfail rfl hcancel hdeadline hfuel, ?_,
    pollTrace_countP_isQuery _ k 0, ?_⟩
  · rw [pollTrace_getLast, Nat.zero_add]
  · intro j hj
    have := pollTrace_query_le _ k 0 j hj
    omega

/-- C12 on `[Pending, Failed(quota), Succeeded(x)]` with fuel for ten polls: the wait ends
with `OperationFailed(quota)` after the second query, and the third status is never
queried. -/
theorem WaitHandler_failed_stops_polling_witness :
    WaitHandler 10
        (statusesOf [.Pending, .Failed (goBytes "quota"), .Succeeded (goBytes "x")])
        { interval := 5, maxElapsed := none } backgroundContext
      = ([.query 0, .sleep 5, .query 1],
        some (.error (.OperationFailed (goBytes "quota")))) ∧
    (pollTrace 5 0 1).getLast? = some (.query 1) ∧
    (pollTrace 5 0 1).countP WaitEvent.isQuery = 2 ∧
    ∀ j, WaitEvent.query j ∈ pollTrace 5 0 1 → j ≤ 1 :=
  WaitHandler_failed_stops_polling 10
    (statusesOf [.Pending, .Failed (goBytes "quota"), .Succeeded (goBytes "x")])
    { interval := 5, maxElapsed := none } backgroundContext 1 (goBytes "quota")
    (by decide) rfl (fun _ _ => rfl) (fun _ h => by cases h) (by decide)

/-- The wait handler of the specification on `Succeeded(x)` at the first poll: one query
and no suspension. -/
theorem WaitHandler_first_poll_succeeded :
    WaitHandler 1 (statusesOf [OperationStatus.Succeeded (goBytes "x")])
        { interval := 5, maxElapsed := none } backgroundContext
      = ([.query 0], some (.ok (goBytes "x"))) := by
  decide

end Stackit
